import Mathlib

/-!
Verification development for the MythOS WebSocket job server
(server.ts, mythographer.ts, io_schema.ts).

The per-connection job machinery of server.ts is embedded as pure
functions over an explicit environment: external generation-service
calls (translate / modify / repair, each wrapped in withTimeout) are
oracle values, and each staleness checkpoint reads a snapshot of the
connection state supplied by the environment (the concurrent message
handler may mutate the state between any two reads, so the snapshots
are indexed by read order).  A job execution produces an instrumented
trace of items: emitted server events interleaved with checkpoint
markers recording the snapshot each staleness check observed.
Erasing the markers yields the event sequence the client observes.
-/

namespace MythOS

/-- typechat's Result type: success with data, or error with a message. -/
inductive Result (α : Type) where
  | success (data : α)
  | error (message : String)
deriving Repr, DecidableEq

/-- Outcome of an awaited external call: resolved with a value, or rejected
(a thrown error; a withTimeout expiry rejects with "Operation timed out"). -/
inductive Outcome (α : Type) where
  | ok (val : α)
  | thrown (message : String)
deriving Repr, DecidableEq

/-- The stageName union type of server.ts line 85:
"received" | "translating" | "modifying" | "validating" | "repair" | "idle". -/
inductive Stage where
  | received
  | translating
  | modifying
  | validating
  | repair
  | idle
deriving Repr, DecidableEq

/-- The literal wire string of each stage, exactly as in the stageName union. -/
def stageText : Stage → String
  | Stage.received => "received"
  | Stage.translating => "translating"
  | Stage.modifying => "modifying"
  | Stage.validating => "validating"
  | Stage.repair => "repair"
  | Stage.idle => "idle"

/-- The six members of the stageName union type. -/
def stageNames : List String :=
  ["received", "translating", "modifying", "validating", "repair", "idle"]

/-- Server-to-client events (EvStatus, EvResult, EvResultPartial, EvError,
EvDone, EvPong of server.ts).  The optional is_modify field is an Option;
the optional attempt field of EvStatus is never populated by the server
(sendStatus spreads an undefined data argument), so it is omitted. -/
inductive Event (J : Type) where
  | status (stage : Stage) (message : String)
  | result (data : J) (is_modify : Option Bool)
  | resultPartial (data : J) (message : String) (is_modify : Option Bool)
  | error (message : String)
  | done (ok : Bool)
  | pong (t : Int)
deriving Repr, DecidableEq

/-- The part of SocketState a staleness check reads: the canceled flag and
lastJobId, as observed at one particular moment. -/
structure ConnSnapshot where
  canceled : Bool
  lastJobId : Nat
deriving Repr, DecidableEq

/-- makeStaleChecker of server.ts: a job is stale when the connection is
canceled or its captured id no longer equals lastJobId. -/
def makeStaleChecker (state : ConnSnapshot) (id : Nat) : Bool :=
  state.canceled || id != state.lastJobId

/-- One item of an instrumented job trace: an emitted event, or a staleness
checkpoint together with the connection snapshot it observed. -/
inductive Item (J : Type) where
  | ev (e : Event J)
  | check (s : ConnSnapshot)
deriving Repr, DecidableEq

/-- Erase the checkpoint markers: the event sequence the client observes. -/
def eventsOf {J : Type} : List (Item J) → List (Event J)
  | [] => []
  | Item.ev e :: rest => e :: eventsOf rest
  | Item.check _ :: rest => eventsOf rest

/-- Environment of one validateAndRepair invocation: the snapshot each
attempt's staleness check reads (indexed by attempt number), the schema
validator (translator.json_is_schema_valid, synchronous), and the outcome
of the attempt-indexed withTimeout(translator.repair(current, message)). -/
structure VAREnv (J : Type) where
  snap : Nat → ConnSnapshot
  validate : J → Result J
  repair : Nat → J → String → Outcome (Result J)

/-- Output of validateAndRepair: the instrumented trace, the returned
Result, and how many repair calls and validator calls were made. -/
structure VAROut (J : Type) where
  items : List (Item J)
  result : Result J
  repairCalls : Nat
  validations : Nat
deriving Repr, DecidableEq

/-- The attempt budget of validateAndRepair (const maxAttempts = 3). -/
def maxAttempts : Nat := 3

/-- The loop of validateAndRepair, one recursive step per attempt.
`remaining` is the number of loop iterations the for-loop may still run
(maxAttempts + 1 - attempt); the top-level call uses remaining = 3,
attempt = 1.  Each iteration: staleness check; "validating" status;
synchronous validation; on success return the current candidate; on the
final attempt emit a result_partial and fall out of the loop; otherwise
emit a "repair" status and invoke the timeout-guarded repair call,
breaking out of the loop if it returns an error Result or throws.
Falling out of the loop returns the "exited unexpectedly" error. -/
def varGo {J : Type} (env : VAREnv J) (jobId : Nat) (is_modify : Bool) :
    Nat → Nat → J → VAROut J
  | 0, _, _ =>
    { items := [],
      result := Result.error "Validation and repair loop exited unexpectedly.",
      repairCalls := 0, validations := 0 }
  | remaining + 1, attempt, current =>
    let s := env.snap attempt
    if makeStaleChecker s jobId then
      { items := [Item.check s],
        result := Result.error "Job stale or canceled during validation.",
        repairCalls := 0, validations := 0 }
    else
      let validatingItem : Item J :=
        Item.ev (Event.status Stage.validating
          ("Validating schema (attempt " ++ toString attempt ++ ")"))
      match env.validate current with
      | Result.success _ =>
        { items := [Item.check s, validatingItem],
          result := Result.success current,
          repairCalls := 0, validations := 1 }
      | Result.error vmsg =>
        if attempt == maxAttempts then
          { items := [Item.check s, validatingItem,
              Item.ev (Event.resultPartial current
                ("Max repair attempts reached. Last error: " ++ vmsg)
                (some is_modify))],
            result := Result.error "Validation and repair loop exited unexpectedly.",
            repairCalls := 0, validations := 1 }
        else
          let repairItem : Item J :=
            Item.ev (Event.status Stage.repair
              ("Repairing (" ++ toString attempt ++ "/3): " ++ vmsg))
          match env.repair attempt current vmsg with
          | Outcome.thrown emsg =>
            { items := [Item.check s, validatingItem, repairItem,
                Item.ev (Event.error
                  ("Repair " ++ toString attempt ++ " threw: " ++ emsg))],
              result := Result.error "Validation and repair loop exited unexpectedly.",
              repairCalls := 1, validations := 1 }
          | Outcome.ok (Result.error rmsg) =>
            { items := [Item.check s, validatingItem, repairItem,
                Item.ev (Event.resultPartial current
                  ("Repair " ++ toString attempt ++ " failed: " ++ rmsg)
                  (some is_modify))],
              result := Result.error "Validation and repair loop exited unexpectedly.",
              repairCalls := 1, validations := 1 }
          | Outcome.ok (Result.success repaired) =>
            let rest := varGo env jobId is_modify remaining (attempt + 1) repaired
            { items := [Item.check s, validatingItem, repairItem] ++ rest.items,
              result := rest.result,
              repairCalls := 1 + rest.repairCalls,
              validations := 1 + rest.validations }

/-- validateAndRepair of server.ts: run the loop from attempt 1 with the
full attempt budget. -/
def validateAndRepair {J : Type} (env : VAREnv J) (jobId : Nat) (json : J)
    (is_modify : Bool) : VAROut J :=
  varGo env jobId is_modify maxAttempts 1 json

/-- Environment of one orchestrated job (runJob / runModificationJob):
the connection snapshots read in program order (read 0: the initial
staleness check; read 1: the post-generation check; reads 1+a: the
validateAndRepair attempt-a checks; read 5: the canceled flag read by the
finally block), the outcome of the timeout-guarded generation call for
each kind, the collaborators validateAndRepair uses, and whether the
withTimeout wrapped around validateAndRepair as a whole fires first
(varCut = some k: the timer wins after k items of the loop's trace;
Promise.race does not stop the losing loop, which keeps running and
keeps emitting its remaining items after the job's cleanup). -/
structure JobEnv (J : Type) where
  snap : Nat → ConnSnapshot
  translateCall : Outcome (Result J)
  modifyCall : Outcome (Result J)
  validate : J → Result J
  repair : Nat → J → String → Outcome (Result J)
  varCut : Option Nat

/-- The VAREnv a job passes to validateAndRepair: the attempt-a staleness
check is the connection read of index 1 + a. -/
def varEnvOf {J : Type} (env : JobEnv J) : VAREnv J :=
  { snap := fun a => env.snap (1 + a),
    validate := env.validate,
    repair := env.repair }

/-- sendError of server.ts: a structured error event followed by a
done event with ok = false. -/
def sendErrorItems {J : Type} (message : String) : List (Item J) :=
  [Item.ev (Event.error message), Item.ev (Event.done false)]

/-- The terminal done event of the finally block: ok is the negation of
the canceled flag as read at cleanup time (read index 5). -/
def doneItem {J : Type} (env : JobEnv J) : Item J :=
  Item.ev (Event.done (!(env.snap 5).canceled))

/-- runJob of server.ts, as an instrumented trace.  Staleness check;
"received" and "translating" statuses; timeout-guarded translate (a throw
or timeout reaches sendError via the catch block with a "Translation
failed: " prefix); staleness re-check; a structural generation failure
reaches sendError with the failure message; otherwise validateAndRepair
runs under its own withTimeout (if the timer fires first, the catch
block reaches sendError with "Operation timed out" and cleanup runs,
but the raced loop is not stopped: its remaining emissions and
checkpoints follow the done events on the still-open socket); a success
Result yields a result event.  The finally block always appends the
terminal done event. -/
def runJobItems {J : Type} (env : JobEnv J) (jobId : Nat) : List (Item J) :=
  Item.check (env.snap 0) ::
  (if makeStaleChecker (env.snap 0) jobId then
    [doneItem env]
  else
    Item.ev (Event.status Stage.received "Prompt received.") ::
    Item.ev (Event.status Stage.translating "Starting translation to schema...") ::
    (match env.translateCall with
     | Outcome.thrown m =>
       sendErrorItems ("Translation failed: " ++ m) ++ [doneItem env]
     | Outcome.ok tr =>
       Item.check (env.snap 1) ::
       (if makeStaleChecker (env.snap 1) jobId then
         [doneItem env]
       else
         match tr with
         | Result.error m => sendErrorItems m ++ [doneItem env]
         | Result.success data =>
           let out := validateAndRepair (varEnvOf env) jobId data false
           match env.varCut with
           | some k =>
             if k < out.items.length then
               out.items.take k ++ sendErrorItems "Operation timed out"
                 ++ [doneItem env] ++ out.items.drop k
             else
               out.items ++
                 (match out.result with
                  | Result.success d => [Item.ev (Event.result d none)]
                  | Result.error _ => []) ++ [doneItem env]
           | none =>
             out.items ++
               (match out.result with
                | Result.success d => [Item.ev (Event.result d none)]
                | Result.error _ => []) ++ [doneItem env])))

/-- runModificationJob of server.ts: identical orchestration with the
"modifying" stage label, the modify generation call (catch prefix
"Modification failed: "), is_modify = true through validateAndRepair,
and a result event flagged is_modify: true. -/
def runModificationJobItems {J : Type} (env : JobEnv J) (jobId : Nat) :
    List (Item J) :=
  Item.check (env.snap 0) ::
  (if makeStaleChecker (env.snap 0) jobId then
    [doneItem env]
  else
    Item.ev (Event.status Stage.received "Prompt received.") ::
    Item.ev (Event.status Stage.modifying "Starting modification to schema...") ::
    (match env.modifyCall with
     | Outcome.thrown m =>
       sendErrorItems ("Modification failed: " ++ m) ++ [doneItem env]
     | Outcome.ok tr =>
       Item.check (env.snap 1) ::
       (if makeStaleChecker (env.snap 1) jobId then
         [doneItem env]
       else
         match tr with
         | Result.error m => sendErrorItems m ++ [doneItem env]
         | Result.success data =>
           let out := validateAndRepair (varEnvOf env) jobId data true
           match env.varCut with
           | some k =>
             if k < out.items.length then
               out.items.take k ++ sendErrorItems "Operation timed out"
                 ++ [doneItem env] ++ out.items.drop k
             else
               out.items ++
                 (match out.result with
                  | Result.success d => [Item.ev (Event.result d (some true))]
                  | Result.error _ => []) ++ [doneItem env]
           | none =>
             out.items ++
               (match out.result with
                | Result.success d => [Item.ev (Event.result d (some true))]
                | Result.error _ => []) ++ [doneItem env])))

/-- The per-connection SocketState of server.ts (the heartbeat timer
handle is a scoped resource with no bearing on the claims). -/
structure SocketState where
  busy : Bool
  canceled : Bool
  jobName : Stage
  lastJobId : Nat
deriving Repr, DecidableEq

/-- An inbound client message after JSON parsing: the four recognized
shapes (with their optional fields explicit), an unrecognized type tag,
or unparseable JSON. -/
inductive ClientMessage (J : Type) where
  | malformed
  | ping
  | cancel
  | prompt (prompt : Option String)
  | modify (prompt : Option String) (originalJson : Option J)
  | unknownType
deriving Repr, DecidableEq

/-- A job dispatched (fire-and-forget) by the message handler. -/
inductive Dispatch (J : Type) where
  | job (jobId : Nat) (prompt : String)
  | modificationJob (jobId : Nat) (prompt : String) (previousJson : J)
deriving Repr, DecidableEq

/-- JavaScript String.prototype.trim, as used on inbound prompts:
whitespace stripped from both ends. -/
def trimString (s : String) : String :=
  String.mk (((s.data.dropWhile Char.isWhitespace).reverse.dropWhile
    Char.isWhitespace).reverse)

/-- The ws.on("message") handler of server.ts: returns the updated
SocketState, the events sent synchronously by the handler itself, and
the job dispatched, if any.  sendStatus also records the stage into
state.jobName.  For prompt and modify the trimmed-prompt check precedes
the busy check, which precedes (for modify) the originalJson check. -/
def handleMessage {J : Type} (st : SocketState) (now : Int)
    (msg : ClientMessage J) :
    SocketState × List (Event J) × Option (Dispatch J) :=
  match msg with
  | ClientMessage.malformed =>
    (st, [Event.error "Design Server: Invalid JSON in message from client"], none)
  | ClientMessage.ping =>
    (st, [Event.pong now], none)
  | ClientMessage.cancel =>
    if st.busy then
      ({ st with canceled := true, jobName := Stage.idle },
       [Event.status Stage.idle "Job canceled by client."], none)
    else
      ({ st with jobName := Stage.idle },
       [Event.status Stage.idle "No active job to cancel."], none)
  | ClientMessage.prompt p =>
    let prompt := trimString (p.getD "")
    if prompt = "" then
      (st, [Event.error "Missing \x27prompt\x27.", Event.done false], none)
    else if st.busy then
      (st, [Event.error "Job already in progress on this connection."], none)
    else
      ({ st with lastJobId := st.lastJobId + 1 }, [],
       some (Dispatch.job (st.lastJobId + 1) prompt))
  | ClientMessage.modify p oj =>
    let prompt := trimString (p.getD "")
    if prompt = "" then
      (st, [Event.error "Missing \x27prompt\x27.", Event.done false], none)
    else if st.busy then
      (st, [Event.error "Job already in progress on this connection."], none)
    else
      match oj with
      | none =>
        (st, [Event.error "Missing \x27originalJson\x27.", Event.done false], none)
      | some previousJson =>
        ({ st with lastJobId := st.lastJobId + 1 }, [],
         some (Dispatch.modificationJob (st.lastJobId + 1) prompt previousJson))
  | ClientMessage.unknownType =>
    (st, [Event.error "Unknown message type."], none)

/-!  The mythographer translator (mythographer.ts).  The language model
and JSON.parse are external collaborators: the model completion for a
request is supplied as a Result String, and JSON.parse as a function
returning Except (a SyntaxError throw is its error case). -/

/-- Index of the first occurrence of a character, starting from offset i. -/
def firstIndexAux (c : Char) : List Char → Nat → Option Nat
  | [], _ => none
  | x :: xs, i => if x = c then some i else firstIndexAux c xs (i + 1)

/-- JavaScript String.prototype.indexOf for a single character:
the index of its first occurrence, or -1 when absent. -/
def jsIndexOf (s : String) (c : Char) : Int :=
  match firstIndexAux c s.data 0 with
  | some i => (i : Int)
  | none => -1

/-- JavaScript String.prototype.lastIndexOf for a single character:
the index of its last occurrence, or -1 when absent. -/
def jsLastIndexOf (s : String) (c : Char) : Int :=
  match firstIndexAux c s.data.reverse 0 with
  | some i => (s.data.length : Int) - 1 - (i : Int)
  | none => -1

/-- JavaScript String.prototype.slice with nonnegative indices:
the characters from position a (inclusive) to position b (exclusive). -/
def jsSlice (s : String) (a b : Nat) : String :=
  String.mk ((s.data.drop a).take (b - a))

/-- The opening brace character. -/
def braceOpen : Char := Char.ofNat 123

/-- The closing brace character. -/
def braceClose : Char := Char.ofNat 125

/-- The JSON.parse collaborator: parses a string to an object of type J
or fails with a SyntaxError message. -/
structure GenModel (J : Type) where
  jsonParse : String → Except String J

/-- parse_json_response of mythographer.ts: locate the first opening
brace and the last closing brace of the response text; if there is no
such pair in order, return the "Response is not JSON" error; otherwise
JSON.parse the slice between them (inclusive), converting a parse throw
into an error Result.  The translator is created with stripNulls = false
and never toggles it, so the parsed object is returned as-is. -/
def parse_json_response {J : Type} (g : GenModel J) (responseText : String) :
    Result J :=
  let startIndex := jsIndexOf responseText braceOpen
  let endIndex := jsLastIndexOf responseText braceClose
  if startIndex ≥ 0 ∧ endIndex > startIndex then
    let jsonText := jsSlice responseText startIndex.toNat (endIndex.toNat + 1)
    match g.jsonParse jsonText with
    | Except.ok jsonObject => Result.success jsonObject
    | Except.error m => Result.error m
  else
    Result.error ("Response is not JSON:\n" ++ responseText)

/-- translate of mythographer.ts, given the model.complete outcome for
the constructed request prompt: a completion failure is returned as-is,
a completion success has its text run through parse_json_response.
(The while(true) loop returns on its first iteration in both branches.) -/
def translate {J : Type} (g : GenModel J) (completion : Result String) :
    Result J :=
  match completion with
  | Result.error m => Result.error m
  | Result.success responseText => parse_json_response g responseText

/-- modify of mythographer.ts: identical response handling to translate
(only the constructed prompt differs). -/
def modify {J : Type} (g : GenModel J) (completion : Result String) :
    Result J :=
  match completion with
  | Result.error m => Result.error m
  | Result.success responseText => parse_json_response g responseText

/-- repair of mythographer.ts: identical response handling to translate
(only the constructed prompt differs). -/
def repair {J : Type} (g : GenModel J) (completion : Result String) :
    Result J :=
  match completion with
  | Result.error m => Result.error m
  | Result.success responseText => parse_json_response g responseText

/-!  Trace analysis: a state machine over event sequences, and scanners
for the cancellation-suppression property. -/

/-- States of the per-job event-order automaton: nothing seen yet; after
"received"; after "translating"/"modifying"; just validated; just
emitted a repair status; after a terminal result or result_partial;
after a hard error; after a done not preceded by a hard error; after
one and after two dones following a hard error; in the abandoned loop
continuation after the done events (just validated, just emitted a
repair status, emitted its terminal); invalid. -/
inductive AState where
  | s0
  | s1
  | s2
  | sV
  | sR
  | sT
  | sE
  | d1
  | e1
  | e2
  | pV
  | pR
  | pT
  | sink
deriving Repr, DecidableEq

/-- Transition function of the event-order language the server actually
guarantees: stage statuses advance received → translating/modifying →
validating → (repair → validating)*; a terminal result follows a
validation, a result_partial follows a validation or a repair status, a
hard error may follow the generation step, a validation, or a repair
status.  One done closes the trace, except after a hard error, where a
second done may follow (sendError + cleanup) and — when the error was
the outer timeout — the abandoned loop continuation may then emit
alternating validating/repair statuses concluded by at most one
result_partial or error, never a result and never another done. -/
def aStepAmended {J : Type} : AState → Event J → AState
  | AState.s0, Event.status Stage.received _ => AState.s1
  | AState.s0, Event.done _ => AState.d1
  | AState.s1, Event.status Stage.translating _ => AState.s2
  | AState.s1, Event.status Stage.modifying _ => AState.s2
  | AState.s2, Event.status Stage.validating _ => AState.sV
  | AState.s2, Event.error _ => AState.sE
  | AState.s2, Event.done _ => AState.d1
  | AState.sV, Event.status Stage.repair _ => AState.sR
  | AState.sV, Event.result _ _ => AState.sT
  | AState.sV, Event.resultPartial _ _ _ => AState.sT
  | AState.sV, Event.error _ => AState.sE
  | AState.sV, Event.done _ => AState.d1
  | AState.sR, Event.status Stage.validating _ => AState.sV
  | AState.sR, Event.resultPartial _ _ _ => AState.sT
  | AState.sR, Event.error _ => AState.sE
  | AState.sR, Event.done _ => AState.d1
  | AState.sT, Event.done _ => AState.d1
  | AState.sE, Event.done _ => AState.e1
  | AState.e1, Event.done _ => AState.e2
  | AState.e2, Event.status Stage.validating _ => AState.pV
  | AState.e2, Event.status Stage.repair _ => AState.pR
  | AState.e2, Event.resultPartial _ _ _ => AState.pT
  | AState.e2, Event.error _ => AState.pT
  | AState.pV, Event.status Stage.repair _ => AState.pR
  | AState.pV, Event.resultPartial _ _ _ => AState.pT
  | AState.pR, Event.status Stage.validating _ => AState.pV
  | AState.pR, Event.resultPartial _ _ _ => AState.pT
  | AState.pR, Event.error _ => AState.pT
  | _, _ => AState.sink

/-- Transition function of the event-order language claimed in the spec:
the stage events are a prefix of received → translating/modifying →
validating → (repair → validating)*, a terminal (result, result_partial
or error) may appear only after a validation, exactly one done closes
the trace and nothing follows it.  (The repair-stage status is matched
by its stageName value "repair"; the naming question is separate.) -/
def aStepClaim {J : Type} : AState → Event J → AState
  | AState.s0, Event.status Stage.received _ => AState.s1
  | AState.s0, Event.done _ => AState.d1
  | AState.s1, Event.status Stage.translating _ => AState.s2
  | AState.s1, Event.status Stage.modifying _ => AState.s2
  | AState.s1, Event.done _ => AState.d1
  | AState.s2, Event.status Stage.validating _ => AState.sV
  | AState.s2, Event.done _ => AState.d1
  | AState.sV, Event.status Stage.repair _ => AState.sR
  | AState.sV, Event.result _ _ => AState.sT
  | AState.sV, Event.resultPartial _ _ _ => AState.sT
  | AState.sV, Event.error _ => AState.sT
  | AState.sV, Event.done _ => AState.d1
  | AState.sR, Event.status Stage.validating _ => AState.sV
  | AState.sR, Event.done _ => AState.d1
  | AState.sT, Event.done _ => AState.d1
  | _, _ => AState.sink

/-- Acceptance under the claimed ordering: the trace ends exactly at its
single done event. -/
def acceptsClaimOrder {J : Type} (evs : List (Event J)) : Bool :=
  (evs.foldl aStepClaim AState.s0) == AState.d1

/-- Accepting states of the amended ordering: at the (single) done, at
the first or second done of a hard-error path, or anywhere within the
abandoned loop continuation's event suffix. -/
def acceptStates : List AState :=
  [AState.d1, AState.e1, AState.e2, AState.pV, AState.pR, AState.pT]

/-- Acceptance under the actual ordering. -/
def acceptsAmendedOrder {J : Type} (evs : List (Event J)) : Bool :=
  let q := evs.foldl aStepAmended AState.s0
  q == AState.d1 || q == AState.e1 || q == AState.e2
    || q == AState.pV || q == AState.pR || q == AState.pT

/-- Mid-run automaton states: those a cut of the validateAndRepair trace
(by the surrounding withTimeout) can end in. -/
def midStates : List AState := [AState.s2, AState.sV, AState.sR]

/-- Automaton states a completed validateAndRepair trace can end in. -/
def endStates : List AState :=
  [AState.s2, AState.sV, AState.sR, AState.sT, AState.sE]

/-- Automaton states the post-timeout loop continuation can be in. -/
def postStates : List AState :=
  [AState.e2, AState.pV, AState.pR, AState.pT]

/-- True when the event list is empty or exactly one done event whose ok
flag is b. -/
def isDoneOrNothing {J : Type} (b : Bool) : List (Event J) → Bool
  | [] => true
  | [Event.done x] => x == b
  | _ => false

/-- True when no checkpoint of the trace observed a canceled connection. -/
def noCanceledCheck {J : Type} (l : List (Item J)) : Bool :=
  l.all fun it =>
    match it with
    | Item.check s => !s.canceled
    | Item.ev _ => true

/-- The cancellation-suppression scanner: whenever a checkpoint of the
trace observes the canceled flag set, the remainder of the trace emits
no event at all, or exactly the terminal done whose ok flag is b (the
cleanup-time read). -/
def afterCancelQuiet {J : Type} (b : Bool) : List (Item J) → Bool
  | [] => true
  | Item.check s :: rest =>
    (if s.canceled then isDoneOrNothing b (eventsOf rest) else true)
      && afterCancelQuiet b rest
  | Item.ev _ :: rest => afterCancelQuiet b rest

/-- Number of done events in a trace. -/
def countDone {J : Type} (evs : List (Event J)) : Nat :=
  (evs.filter fun e =>
    match e with
    | Event.done _ => true
    | _ => false).length

/-- The shared orchestration skeleton of runJob and runModificationJob,
abstracted over the job-kind stage label, start message, catch prefix,
generation call and result flag.  runJobItems and
runModificationJobItems are definitionally instances of it. -/
def orchestrateItems {J : Type} (env : JobEnv J) (jobId : Nat)
    (startStage : Stage) (startMsg : String) (failPrefix : String)
    (call : Outcome (Result J)) (isMod : Bool) (flag : Option Bool) :
    List (Item J) :=
  Item.check (env.snap 0) ::
  (if makeStaleChecker (env.snap 0) jobId then
    [doneItem env]
  else
    Item.ev (Event.status Stage.received "Prompt received.") ::
    Item.ev (Event.status startStage startMsg) ::
    (match call with
     | Outcome.thrown m =>
       sendErrorItems (failPrefix ++ m) ++ [doneItem env]
     | Outcome.ok tr =>
       Item.check (env.snap 1) ::
       (if makeStaleChecker (env.snap 1) jobId then
         [doneItem env]
       else
         match tr with
         | Result.error m => sendErrorItems m ++ [doneItem env]
         | Result.success data =>
           let out := validateAndRepair (varEnvOf env) jobId data isMod
           match env.varCut with
           | some k =>
             if k < out.items.length then
               out.items.take k ++ sendErrorItems "Operation timed out"
                 ++ [doneItem env] ++ out.items.drop k
             else
               out.items ++
                 (match out.result with
                  | Result.success d => [Item.ev (Event.result d flag)]
                  | Result.error _ => []) ++ [doneItem env]
           | none =>
             out.items ++
               (match out.result with
                | Result.success d => [Item.ev (Event.result d flag)]
                | Result.error _ => []) ++ [doneItem env])))

/-! Concrete environments used to evaluate the model at specific inputs. -/

/-- A job whose generation step reports a structural failure, on a
connection that is never canceled and never superseded. -/
def envErrPath : JobEnv Nat :=
  { snap := fun _ => { canceled := false, lastJobId := 1 },
    translateCall := Outcome.ok (Result.error "The response is not JSON."),
    modifyCall := Outcome.ok (Result.error "The response is not JSON."),
    validate := fun j => Result.success j,
    repair := fun _ _ _ => Outcome.thrown "x",
    varCut := none }

/-- A second such environment, for the ordering counterexample. -/
def envGenFail : JobEnv Nat :=
  { snap := fun _ => { canceled := false, lastJobId := 1 },
    translateCall := Outcome.ok (Result.error "The model produced no JSON."),
    modifyCall := Outcome.ok (Result.error "The model produced no JSON."),
    validate := fun j => Result.success j,
    repair := fun _ _ _ => Outcome.thrown "x",
    varCut := none }

/-- A connection whose canceled flag is already set at every read. -/
def envCanceled : JobEnv Nat :=
  { snap := fun _ => { canceled := true, lastJobId := 1 },
    translateCall := Outcome.ok (Result.success 0),
    modifyCall := Outcome.ok (Result.success 0),
    validate := fun j => Result.success j,
    repair := fun _ _ _ => Outcome.thrown "x",
    varCut := none }

/-- A job whose outer 180-second timeout fires during the first repair
call (after 3 items of the loop trace), and whose connection becomes
canceled - the socket closes - after the job's cleanup has already run:
the cleanup-time read (index 5) still sees canceled = false, while the
abandoned loop continuation's attempt-2 read (index 3) sees it true. -/
def envCancelLate : JobEnv Nat :=
  { snap := fun k =>
      if k == 3 then { canceled := true, lastJobId := 1 }
      else { canceled := false, lastJobId := 1 },
    translateCall := Outcome.ok (Result.success 0),
    modifyCall := Outcome.ok (Result.success 0),
    validate := fun _ => Result.error "bad",
    repair := fun _ j _ => Outcome.ok (Result.success (j + 1)),
    varCut := some 3 }

/-- A validate-repair environment whose validator rejects everything and
whose repair calls always produce a fresh candidate. -/
def envNeverValid : VAREnv Nat :=
  { snap := fun _ => { canceled := false, lastJobId := 1 },
    validate := fun _ => Result.error "bad",
    repair := fun _ j _ => Outcome.ok (Result.success (j + 1)) }

/-- A validate-repair environment whose validator accepts everything. -/
def envAlwaysValid : VAREnv Nat :=
  { snap := fun _ => { canceled := false, lastJobId := 1 },
    validate := fun j => Result.success j,
    repair := fun _ _ _ => Outcome.thrown "x" }

/-- A never-validating environment used for the status-stage counterexample. -/
def envC6c : VAREnv Nat :=
  { snap := fun _ => { canceled := false, lastJobId := 1 },
    validate := fun _ => Result.error "field missing",
    repair := fun _ j _ => Outcome.ok (Result.success (j + 1)) }

/-- A never-validating environment used for the status-stage witness. -/
def envC6w : VAREnv Nat :=
  { snap := fun _ => { canceled := false, lastJobId := 1 },
    validate := fun _ => Result.error "field missing",
    repair := fun _ j _ => Outcome.ok (Result.success (j + 1)) }

/-- A validate-repair environment observing a canceled connection. -/
def envStale : VAREnv Nat :=
  { snap := fun _ => { canceled := true, lastJobId := 1 },
    validate := fun j => Result.success j,
    repair := fun _ _ _ => Outcome.thrown "x" }

/-- A busy connection state. -/
def stBusyW : SocketState :=
  { busy := true, canceled := false, jobName := Stage.translating, lastJobId := 1 }

/-- An idle connection state. -/
def stIdleW : SocketState :=
  { busy := false, canceled := false, jobName := Stage.idle, lastJobId := 0 }

/-- A concrete JSON.parse collaborator accepting exactly the text "{1}". -/
def gW : GenModel Nat :=
  { jsonParse := fun s =>
      if s = "\x7b1\x7d" then Except.ok 1 else Except.error "Unexpected token" }

end MythOS

namespace MythOS

section Lemmas

variable {J : Type}

lemma runJobItems_eq_orchestrate (env : JobEnv J) (jobId : Nat) :
    runJobItems env jobId =
      orchestrateItems env jobId Stage.translating
        "Starting translation to schema..." "Translation failed: "
        env.translateCall false none := rfl

lemma runModificationJobItems_eq_orchestrate (env : JobEnv J) (jobId : Nat) :
    runModificationJobItems env jobId =
      orchestrateItems env jobId Stage.modifying
        "Starting modification to schema..." "Modification failed: "
        env.modifyCall true (some true) := rfl

@[simp] lemma eventsOf_nil : eventsOf ([] : List (Item J)) = [] := rfl

@[simp] lemma eventsOf_ev (e : Event J) (rest : List (Item J)) :
    eventsOf (Item.ev e :: rest) = e :: eventsOf rest := rfl

@[simp] lemma eventsOf_check (s : ConnSnapshot) (rest : List (Item J)) :
    eventsOf (Item.check s :: rest) = eventsOf rest := rfl

@[simp] lemma eventsOf_append (l1 l2 : List (Item J)) :
    eventsOf (l1 ++ l2) = eventsOf l1 ++ eventsOf l2 := by
  induction l1 with
  | nil => rfl
  | cons it rest ih => cases it <;> simp [ih]

lemma varGo_stale (env : VAREnv J) (jobId : Nat) (m : Bool) (r a : Nat) (j : J)
    (h : makeStaleChecker (env.snap a) jobId = true) :
    varGo env jobId m (r + 1) a j =
      { items := [Item.check (env.snap a)],
        result := Result.error "Job stale or canceled during validation.",
        repairCalls := 0, validations := 0 } := by
  simp [varGo, h]

lemma varGo_valid (env : VAREnv J) (jobId : Nat) (m : Bool) (r a : Nat) (j w : J)
    (h : makeStaleChecker (env.snap a) jobId = false)
    (hv : env.validate j = Result.success w) :
    varGo env jobId m (r + 1) a j =
      { items := [Item.check (env.snap a),
          Item.ev (Event.status Stage.validating
            ("Validating schema (attempt " ++ toString a ++ ")"))],
        result := Result.success j,
        repairCalls := 0, validations := 1 } := by
  simp [varGo, h, hv]

lemma varGo_final (env : VAREnv J) (jobId : Nat) (m : Bool) (r a : Nat) (j : J)
    (vmsg : String)
    (h : makeStaleChecker (env.snap a) jobId = false)
    (hv : env.validate j = Result.error vmsg)
    (ha : (a == maxAttempts) = true) :
    varGo env jobId m (r + 1) a j =
      { items := [Item.check (env.snap a),
          Item.ev (Event.status Stage.validating
            ("Validating schema (attempt " ++ toString a ++ ")")),
          Item.ev (Event.resultPartial j
            ("Max repair attempts reached. Last error: " ++ vmsg) (some m))],
        result := Result.error "Validation and repair loop exited unexpectedly.",
        repairCalls := 0, validations := 1 } := by
  simp [varGo, h, hv, ha]

lemma varGo_thrown (env : VAREnv J) (jobId : Nat) (m : Bool) (r a : Nat) (j : J)
    (vmsg emsg : String)
    (h : makeStaleChecker (env.snap a) jobId = false)
    (hv : env.validate j = Result.error vmsg)
    (ha : (a == maxAttempts) = false)
    (hr : env.repair a j vmsg = Outcome.thrown emsg) :
    varGo env jobId m (r + 1) a j =
      { items := [Item.check (env.snap a),
          Item.ev (Event.status Stage.validating
            ("Validating schema (attempt " ++ toString a ++ ")")),
          Item.ev (Event.status Stage.repair
            ("Repairing (" ++ toString a ++ "/3): " ++ vmsg)),
          Item.ev (Event.error ("Repair " ++ toString a ++ " threw: " ++ emsg))],
        result := Result.error "Validation and repair loop exited unexpectedly.",
        repairCalls := 1, validations := 1 } := by
  simp [varGo, h, hv, ha, hr]

lemma varGo_repairFail (env : VAREnv J) (jobId : Nat) (m : Bool) (r a : Nat)
    (j : J) (vmsg rmsg : String)
    (h : makeStaleChecker (env.snap a) jobId = false)
    (hv : env.validate j = Result.error vmsg)
    (ha : (a == maxAttempts) = false)
    (hr : env.repair a j vmsg = Outcome.ok (Result.error rmsg)) :
    varGo env jobId m (r + 1) a j =
      { items := [Item.check (env.snap a),
          Item.ev (Event.status Stage.validating
            ("Validating schema (attempt " ++ toString a ++ ")")),
          Item.ev (Event.status Stage.repair
            ("Repairing (" ++ toString a ++ "/3): " ++ vmsg)),
          Item.ev (Event.resultPartial j
            ("Repair " ++ toString a ++ " failed: " ++ rmsg) (some m))],
        result := Result.error "Validation and repair loop exited unexpectedly.",
        repairCalls := 1, validations := 1 } := by
  simp [varGo, h, hv, ha, hr]

lemma varGo_repairOk (env : VAREnv J) (jobId : Nat) (m : Bool) (r a : Nat)
    (j repaired : J) (vmsg : String)
    (h : makeStaleChecker (env.snap a) jobId = false)
    (hv : env.validate j = Result.error vmsg)
    (ha : (a == maxAttempts) = false)
    (hr : env.repair a j vmsg = Outcome.ok (Result.success repaired)) :
    varGo env jobId m (r + 1) a j =
      { items := [Item.check (env.snap a),
          Item.ev (Event.status Stage.validating
            ("Validating schema (attempt " ++ toString a ++ ")")),
          Item.ev (Event.status Stage.repair
            ("Repairing (" ++ toString a ++ "/3): " ++ vmsg))] ++
          (varGo env jobId m r (a + 1) repaired).items,
        result := (varGo env jobId m r (a + 1) repaired).result,
        repairCalls := 1 + (varGo env jobId m r (a + 1) repaired).repairCalls,
        validations := 1 + (varGo env jobId m r (a + 1) repaired).validations } := by
  simp [varGo, h, hv, ha, hr]

lemma canceled_false_of_not_stale {s : ConnSnapshot} {id : Nat}
    (h : makeStaleChecker s id = false) : s.canceled = false := by
  simp [makeStaleChecker, Bool.or_eq_false_iff] at h
  exact h.1

lemma aStep_done_of_endState {J : Type} (q : AState) (hq : q ∈ endStates)
    (b : Bool) : aStepAmended (J := J) q (Event.done b) = AState.d1
      ∨ aStepAmended (J := J) q (Event.done b) = AState.e1 := by
  simp [endStates] at hq
  rcases hq with h | h | h | h | h <;> subst h <;> simp [aStepAmended]

lemma aStep_error_of_midState {J : Type} (q : AState) (hq : q ∈ midStates)
    (msg : String) : aStepAmended (J := J) q (Event.error msg) = AState.sE := by
  simp [midStates] at hq
  rcases hq with h | h | h <;> subst h <;> rfl

/-- Automaton behaviour of the validateAndRepair trace: started from a
post-generation state (s2) or a post-repair-status state (sR), every cut
of the trace strictly before its end stays in a mid-run state, the full
trace ends in an allowed state, and a success Result forces the final
state to be "just validated". -/
lemma varAuto {J : Type} (env : VAREnv J) (jobId : Nat) (m : Bool) :
    ∀ (r a : Nat) (j : J) (p : AState), p = AState.s2 ∨ p = AState.sR →
      ((∀ k, k < ((varGo env jobId m r a j).items).length →
        List.foldl aStepAmended p (eventsOf (((varGo env jobId m r a j).items).take k))
          ∈ midStates)
      ∧ List.foldl aStepAmended p (eventsOf ((varGo env jobId m r a j).items))
          ∈ endStates
      ∧ (∀ d, (varGo env jobId m r a j).result = Result.success d →
          List.foldl aStepAmended p (eventsOf ((varGo env jobId m r a j).items))
            = AState.sV)) := by
  intro r
  induction r with
  | zero =>
    intro a j p hp
    refine ⟨?_, ?_, ?_⟩
    · intro k hk
      simp [varGo] at hk
    · rcases hp with h | h <;> subst h <;> simp [varGo, endStates]
    · intro d hd
      simp [varGo] at hd
  | succ r ih =>
    intro a j p hp
    by_cases hst : makeStaleChecker (env.snap a) jobId = true
    · rw [varGo_stale env jobId m r a j hst]
      refine ⟨?_, ?_, ?_⟩
      · intro k hk
        simp only [List.length_cons, List.length_nil] at hk
        interval_cases k
        · rcases hp with h | h <;> subst h <;> simp [midStates]
      · rcases hp with h | h <;> subst h <;> simp [endStates]
      · intro d hd
        simp at hd
    · rw [Bool.not_eq_true] at hst
      cases hv : env.validate j with
      | success w =>
        rw [varGo_valid env jobId m r a j w hst hv]
        refine ⟨?_, ?_, ?_⟩
        · intro k hk
          simp only [List.length_cons, List.length_nil] at hk
          interval_cases k <;>
            rcases hp with h | h <;> subst h <;> simp [midStates, aStepAmended]
        · rcases hp with h | h <;> subst h <;>
            simp [endStates, aStepAmended]
        · intro d _
          rcases hp with h | h <;> subst h <;> simp [aStepAmended]
      | error vmsg =>
        by_cases ha : (a == maxAttempts) = true
        · rw [varGo_final env jobId m r a j vmsg hst hv ha]
          refine ⟨?_, ?_, ?_⟩
          · intro k hk
            simp only [List.length_cons, List.length_nil] at hk
            interval_cases k <;>
              rcases hp with h | h <;> subst h <;> simp [midStates, aStepAmended]
          · rcases hp with h | h <;> subst h <;>
              simp [endStates, aStepAmended]
          · intro d hd
            simp at hd
        · rw [Bool.not_eq_true] at ha
          cases hr : env.repair a j vmsg with
          | thrown emsg =>
            rw [varGo_thrown env jobId m r a j vmsg emsg hst hv ha hr]
            refine ⟨?_, ?_, ?_⟩
            · intro k hk
              simp at hk
              interval_cases k <;>
                rcases hp with h | h <;> subst h <;> simp [midStates, aStepAmended]
            · rcases hp with h | h <;> subst h <;>
                simp [endStates, aStepAmended]
            · intro d hd
              simp at hd
          | ok rres =>
            cases rres with
            | error rmsg =>
              rw [varGo_repairFail env jobId m r a j vmsg rmsg hst hv ha hr]
              refine ⟨?_, ?_, ?_⟩
              · intro k hk
                simp only [List.length_cons, List.length_nil] at hk
                interval_cases k <;>
                  rcases hp with h | h <;> subst h <;> simp [midStates, aStepAmended]
              · rcases hp with h | h <;> subst h <;>
                  simp [endStates, aStepAmended]
              · intro d hd
                simp at hd
            | success repaired =>
              rw [varGo_repairOk env jobId m r a j repaired vmsg hst hv ha hr]
              obtain ⟨ih1, ih2, ih3⟩ :=
                ih (a + 1) repaired AState.sR (Or.inr rfl)
              have hfold :
                  ∀ q : List (Item J),
                    List.foldl aStepAmended p
                      (eventsOf ([Item.check (env.snap a),
                        Item.ev (Event.status Stage.validating
                          ("Validating schema (attempt " ++ toString a ++ ")")),
                        Item.ev (Event.status Stage.repair
                          ("Repairing (" ++ toString a ++ "/3): " ++ vmsg))] ++ q))
                    = List.foldl aStepAmended AState.sR (eventsOf q) := by
                intro q
                rcases hp with h | h <;> subst h <;>
                  simp [aStepAmended, List.foldl_append]
              refine ⟨?_, ?_, ?_⟩
              · intro k hk
                simp only [List.length_append, List.length_cons,
                  List.length_nil] at hk
                match k, hk with
                | 0, _ =>
                  rcases hp with h | h <;> subst h <;> simp [midStates]
                | 1, _ =>
                  rcases hp with h | h <;> subst h <;> simp [midStates]
                | 2, _ =>
                  rcases hp with h | h <;> subst h <;>
                    simp [midStates, aStepAmended, List.take_succ_cons]
                | (k' + 3), hk =>
                  have hlen : k' < ((varGo env jobId m r (a + 1) repaired).items).length := by
                    omega
                  have htake :
                      (([Item.check (env.snap a),
                        Item.ev (Event.status Stage.validating
                          ("Validating schema (attempt " ++ toString a ++ ")")),
                        Item.ev (Event.status Stage.repair
                          ("Repairing (" ++ toString a ++ "/3): " ++ vmsg))] ++
                        (varGo env jobId m r (a + 1) repaired).items).take (k' + 3))
                      = [Item.check (env.snap a),
                        Item.ev (Event.status Stage.validating
                          ("Validating schema (attempt " ++ toString a ++ ")")),
                        Item.ev (Event.status Stage.repair
                          ("Repairing (" ++ toString a ++ "/3): " ++ vmsg))] ++
                        ((varGo env jobId m r (a + 1) repaired).items).take k' := by
                    rw [List.take_append_eq_append_take]
                    simp
                  rw [htake, hfold]
                  exact ih1 k' hlen
              · rw [hfold]
                exact ih2
              · intro d hd
                rw [hfold]
                exact ih3 d hd

@[simp] lemma afterCancelQuiet_nil (b : Bool) :
    afterCancelQuiet b ([] : List (Item J)) = true := rfl

@[simp] lemma afterCancelQuiet_ev (b : Bool) (e : Event J)
    (rest : List (Item J)) :
    afterCancelQuiet b (Item.ev e :: rest) = afterCancelQuiet b rest := rfl

lemma afterCancelQuiet_check (b : Bool) (s : ConnSnapshot)
    (rest : List (Item J)) :
    afterCancelQuiet b (Item.check s :: rest)
      = ((if s.canceled then isDoneOrNothing b (eventsOf rest) else true)
          && afterCancelQuiet b rest) := rfl

@[simp] lemma afterCancelQuiet_check_false (b : Bool) {s : ConnSnapshot}
    (h : s.canceled = false) (rest : List (Item J)) :
    afterCancelQuiet b (Item.check s :: rest) = afterCancelQuiet b rest := by
  rw [afterCancelQuiet_check, h]
  simp

lemma noCanceledCheck_append (l1 l2 : List (Item J)) :
    noCanceledCheck (l1 ++ l2) = (noCanceledCheck l1 && noCanceledCheck l2) := by
  simp [noCanceledCheck, List.all_append]

lemma noCanceledCheck_take (l : List (Item J)) (k : Nat)
    (h : noCanceledCheck l = true) : noCanceledCheck (l.take k) = true := by
  simp only [noCanceledCheck, List.all_eq_true] at h ⊢
  intro it hit
  exact h it (List.mem_of_mem_take hit)

lemma noCanceledCheck_drop (l : List (Item J)) (k : Nat)
    (h : noCanceledCheck l = true) : noCanceledCheck (l.drop k) = true := by
  simp only [noCanceledCheck, List.all_eq_true] at h ⊢
  intro it hit
  exact h it (List.mem_of_mem_drop hit)

lemma afterCancelQuiet_append_no (b : Bool) (l t : List (Item J))
    (h : noCanceledCheck l = true) :
    afterCancelQuiet b (l ++ t) = afterCancelQuiet b t := by
  induction l with
  | nil => rfl
  | cons it rest ih =>
    simp only [noCanceledCheck, List.all_cons, Bool.and_eq_true] at h
    cases it with
    | ev e =>
      simp only [List.cons_append, afterCancelQuiet_ev]
      exact ih h.2
    | check s =>
      have hc : s.canceled = false := by
        simpa using h.1
      simp only [List.cons_append, afterCancelQuiet_check_false b hc]
      exact ih h.2

lemma afterCancelQuiet_of_no (b : Bool) (l : List (Item J))
    (h : noCanceledCheck l = true) : afterCancelQuiet b l = true := by
  have := afterCancelQuiet_append_no b l [] h
  simpa using this

lemma isDoneOrNothing_eq {b : Bool} {evs : List (Event J)}
    (h : isDoneOrNothing b evs = true) :
    evs = [Event.done b] ∨ evs = [] := by
  match evs, h with
  | [], _ => exact Or.inr rfl
  | [Event.done x], h =>
    have hx : x = b := by
      have hx' : (x == b) = true := by simpa [isDoneOrNothing] using h
      exact eq_of_beq hx'
    exact Or.inl (by rw [hx])

/-- Structure of the validateAndRepair trace with respect to canceled
checkpoints: either no checkpoint of the trace observed a canceled
connection, or the trace ends at the checkpoint that did (nothing is
emitted after it) and the loop returned the stale-failure Result. -/
lemma varCancelStruct (env : VAREnv J) (jobId : Nat) (m : Bool) :
    ∀ (r a : Nat) (j : J),
      noCanceledCheck (varGo env jobId m r a j).items = true
      ∨ ∃ (l : List (Item J)) (b : Nat),
          (varGo env jobId m r a j).items = l ++ [Item.check (env.snap b)]
          ∧ (env.snap b).canceled = true
          ∧ noCanceledCheck l = true
          ∧ (varGo env jobId m r a j).result =
              Result.error "Job stale or canceled during validation." := by
  intro r
  induction r with
  | zero =>
    intro a j
    left
    simp [varGo, noCanceledCheck]
  | succ r ih =>
    intro a j
    by_cases hst : makeStaleChecker (env.snap a) jobId = true
    · rw [varGo_stale env jobId m r a j hst]
      by_cases hc : (env.snap a).canceled = true
      · right
        exact ⟨[], a, by simp, hc, by simp [noCanceledCheck], rfl⟩
      · left
        rw [Bool.not_eq_true] at hc
        simp [noCanceledCheck, hc]
    · rw [Bool.not_eq_true] at hst
      have hc : (env.snap a).canceled = false := canceled_false_of_not_stale hst
      cases hv : env.validate j with
      | success w =>
        left
        rw [varGo_valid env jobId m r a j w hst hv]
        simp [noCanceledCheck, hc]
      | error vmsg =>
        by_cases ha : (a == maxAttempts) = true
        · left
          rw [varGo_final env jobId m r a j vmsg hst hv ha]
          simp [noCanceledCheck, hc]
        · rw [Bool.not_eq_true] at ha
          cases hr : env.repair a j vmsg with
          | thrown emsg =>
            left
            rw [varGo_thrown env jobId m r a j vmsg emsg hst hv ha hr]
            simp [noCanceledCheck, hc]
          | ok rres =>
            cases rres with
            | error rmsg =>
              left
              rw [varGo_repairFail env jobId m r a j vmsg rmsg hst hv ha hr]
              simp [noCanceledCheck, hc]
            | success repaired =>
              rw [varGo_repairOk env jobId m r a j repaired vmsg hst hv ha hr]
              rcases ih (a + 1) repaired with hno | ⟨l, b, h1, h2, h3, h4⟩
              · left
                simp only [noCanceledCheck_append]
                rw [hno]
                simp [noCanceledCheck, hc]
              · right
                refine ⟨[Item.check (env.snap a),
                  Item.ev (Event.status Stage.validating
                    ("Validating schema (attempt " ++ toString a ++ ")")),
                  Item.ev (Event.status Stage.repair
                    ("Repairing (" ++ toString a ++ "/3): " ++ vmsg))] ++ l,
                  b, ?_, h2, ?_, h4⟩
                · rw [h1, List.append_assoc]
                · simp only [noCanceledCheck_append]
                  rw [h3]
                  simp [noCanceledCheck, hc]

lemma validateAndRepair_def (env : VAREnv J) (jobId : Nat) (j : J) (m : Bool) :
    validateAndRepair env jobId j m = varGo env jobId m maxAttempts 1 j := rfl

/-- Automaton behaviour of a full validateAndRepair trace read inside
the post-done continuation: started from e2 (right after the two done
events of the timeout path) or pR (after a repair status of the
continuation), the fold stays within the continuation states. -/
lemma varAutoPost (env : VAREnv J) (jobId : Nat) (m : Bool) :
    ∀ (r a : Nat) (j : J) (p : AState), p = AState.e2 ∨ p = AState.pR →
      List.foldl aStepAmended p (eventsOf ((varGo env jobId m r a j).items))
        ∈ postStates := by
  intro r
  induction r with
  | zero =>
    intro a j p hp
    rcases hp with h | h <;> subst h <;> simp [varGo, postStates]
  | succ r ih =>
    intro a j p hp
    by_cases hst : makeStaleChecker (env.snap a) jobId = true
    · rw [varGo_stale env jobId m r a j hst]
      rcases hp with h | h <;> subst h <;> simp [postStates]
    · rw [Bool.not_eq_true] at hst
      cases hv : env.validate j with
      | success w =>
        rw [varGo_valid env jobId m r a j w hst hv]
        rcases hp with h | h <;> subst h <;> simp [postStates, aStepAmended]
      | error vmsg =>
        by_cases ha : (a == maxAttempts) = true
        · rw [varGo_final env jobId m r a j vmsg hst hv ha]
          rcases hp with h | h <;> subst h <;> simp [postStates, aStepAmended]
        · rw [Bool.not_eq_true] at ha
          cases hr : env.repair a j vmsg with
          | thrown emsg =>
            rw [varGo_thrown env jobId m r a j vmsg emsg hst hv ha hr]
            rcases hp with h | h <;> subst h <;> simp [postStates, aStepAmended]
          | ok rres =>
            cases rres with
            | error rmsg =>
              rw [varGo_repairFail env jobId m r a j vmsg rmsg hst hv ha hr]
              rcases hp with h | h <;> subst h <;> simp [postStates, aStepAmended]
            | success repaired =>
              rw [varGo_repairOk env jobId m r a j repaired vmsg hst hv ha hr]
              have hfold :
                  List.foldl aStepAmended p
                    (eventsOf ([Item.check (env.snap a),
                      Item.ev (Event.status Stage.validating
                        ("Validating schema (attempt " ++ toString a ++ ")")),
                      Item.ev (Event.status Stage.repair
                        ("Repairing (" ++ toString a ++ "/3): " ++ vmsg))] ++
                      (varGo env jobId m r (a + 1) repaired).items))
                  = List.foldl aStepAmended AState.pR
                      (eventsOf ((varGo env jobId m r (a + 1) repaired).items)) := by
                rcases hp with h | h <;> subst h <;>
                  simp [aStepAmended, List.foldl_append]
              rw [hfold]
              exact ih (a + 1) repaired AState.pR (Or.inr rfl)

/-- Automaton behaviour of the suffix of a validateAndRepair trace left
to run after the outer timeout: read from state e2, any drop of the
loop's trace stays within the continuation states. -/
lemma varAutoDrop (env : VAREnv J) (jobId : Nat) (m : Bool) :
    ∀ (r a : Nat) (j : J) (k : Nat),
      List.foldl aStepAmended AState.e2
        (eventsOf (((varGo env jobId m r a j).items).drop k))
        ∈ postStates := by
  intro r
  induction r with
  | zero =>
    intro a j k
    simp [varGo, postStates]
  | succ r ih =>
    intro a j k
    by_cases hst : makeStaleChecker (env.snap a) jobId = true
    · rw [varGo_stale env jobId m r a j hst]
      rcases k with _ | k <;> simp [postStates]
    · rw [Bool.not_eq_true] at hst
      cases hv : env.validate j with
      | success w =>
        rw [varGo_valid env jobId m r a j w hst hv]
        rcases k with _ | _ | k <;> simp [postStates, aStepAmended]
      | error vmsg =>
        by_cases ha : (a == maxAttempts) = true
        · rw [varGo_final env jobId m r a j vmsg hst hv ha]
          rcases k with _ | _ | _ | k <;> simp [postStates, aStepAmended]
        · rw [Bool.not_eq_true] at ha
          cases hr : env.repair a j vmsg with
          | thrown emsg =>
            rw [varGo_thrown env jobId m r a j vmsg emsg hst hv ha hr]
            rcases k with _ | _ | _ | _ | k <;> simp [postStates, aStepAmended]
          | ok rres =>
            cases rres with
            | error rmsg =>
              rw [varGo_repairFail env jobId m r a j vmsg rmsg hst hv ha hr]
              rcases k with _ | _ | _ | _ | k <;> simp [postStates, aStepAmended]
            | success repaired =>
              rw [varGo_repairOk env jobId m r a j repaired vmsg hst hv ha hr]
              rcases k with _ | _ | _ | k
              · have hpost := varAutoPost env jobId m r (a + 1) repaired
                  AState.pR (Or.inr rfl)
                simp only [List.drop_zero, List.cons_append, List.nil_append,
                  eventsOf_check, eventsOf_ev, eventsOf_append, List.foldl_cons,
                  List.foldl_append]
                simpa [aStepAmended] using hpost
              · have hpost := varAutoPost env jobId m r (a + 1) repaired
                  AState.pR (Or.inr rfl)
                simp only [List.drop_succ_cons, List.drop_zero,
                  List.cons_append, List.nil_append, eventsOf_check,
                  eventsOf_ev, eventsOf_append, List.foldl_cons,
                  List.foldl_append]
                simpa [aStepAmended] using hpost
              · have hpost := varAutoPost env jobId m r (a + 1) repaired
                  AState.pR (Or.inr rfl)
                simp only [List.drop_succ_cons, List.drop_zero,
                  List.cons_append, List.nil_append, eventsOf_check,
                  eventsOf_ev, eventsOf_append, List.foldl_cons,
                  List.foldl_append]
                simpa [aStepAmended] using hpost
              · have hrec := ih (a + 1) repaired k
                simp only [List.cons_append, List.drop_succ_cons]
                exact hrec

lemma accept_of_post {q : AState} (hq : q ∈ postStates) : q ∈ acceptStates := by
  simp [postStates] at hq
  rcases hq with h | h | h | h <;> subst h <;> simp [acceptStates]

/-- Every checkpoint snapshot of a validateAndRepair trace is one of the
environment's indexed state reads. -/
lemma varGo_check_mem (env : VAREnv J) (jobId : Nat) (m : Bool) :
    ∀ (r a : Nat) (j : J) (s : ConnSnapshot),
      Item.check s ∈ (varGo env jobId m r a j).items → ∃ b, s = env.snap b := by
  intro r
  induction r with
  | zero =>
    intro a j s hs
    simp [varGo] at hs
  | succ r ih =>
    intro a j s hs
    by_cases hst : makeStaleChecker (env.snap a) jobId = true
    · rw [varGo_stale env jobId m r a j hst] at hs
      simp at hs
      exact ⟨a, hs⟩
    · rw [Bool.not_eq_true] at hst
      cases hv : env.validate j with
      | success w =>
        rw [varGo_valid env jobId m r a j w hst hv] at hs
        simp at hs
        exact ⟨a, hs⟩
      | error vmsg =>
        by_cases ha : (a == maxAttempts) = true
        · rw [varGo_final env jobId m r a j vmsg hst hv ha] at hs
          simp at hs
          exact ⟨a, hs⟩
        · rw [Bool.not_eq_true] at ha
          cases hr : env.repair a j vmsg with
          | thrown emsg =>
            rw [varGo_thrown env jobId m r a j vmsg emsg hst hv ha hr] at hs
            simp at hs
            exact ⟨a, hs⟩
          | ok rres =>
            cases rres with
            | error rmsg =>
              rw [varGo_repairFail env jobId m r a j vmsg rmsg hst hv ha hr] at hs
              simp at hs
              exact ⟨a, hs⟩
            | success repaired =>
              rw [varGo_repairOk env jobId m r a j repaired vmsg hst hv ha hr] at hs
              simp at hs
              rcases hs with hs | hs
              · exact ⟨a, hs⟩
              · exact ih (a + 1) repaired s hs

/-- Every checkpoint snapshot of a job trace is one of the
environment's indexed state reads. -/
lemma orchestrate_check_mem (env : JobEnv J) (jobId : Nat) (stg : Stage)
    (sm fp : String) (call : Outcome (Result J)) (isMod : Bool)
    (flag : Option Bool) (s : ConnSnapshot)
    (hs : Item.check s ∈ orchestrateItems env jobId stg sm fp call isMod flag) :
    ∃ k, s = env.snap k := by
  have hvar : ∀ j : J,
      Item.check s ∈ (varGo (varEnvOf env) jobId isMod maxAttempts 1 j).items →
      ∃ k, s = env.snap k := by
    intro j hj
    obtain ⟨b, hb⟩ := varGo_check_mem (varEnvOf env) jobId isMod maxAttempts 1 j s hj
    exact ⟨1 + b, hb⟩
  by_cases h0 : makeStaleChecker (env.snap 0) jobId = true
  · simp [orchestrateItems, h0, doneItem] at hs
    exact ⟨0, hs⟩
  · cases call with
    | thrown msg =>
      simp [orchestrateItems, h0, sendErrorItems, doneItem] at hs
      exact ⟨0, hs⟩
    | ok tr =>
      by_cases h1 : makeStaleChecker (env.snap 1) jobId = true
      · simp [orchestrateItems, h0, h1, doneItem] at hs
        rcases hs with hs | hs
        · exact ⟨0, hs⟩
        · exact ⟨1, hs⟩
      · cases tr with
        | error m =>
          simp [orchestrateItems, h0, h1, sendErrorItems, doneItem] at hs
          rcases hs with hs | hs
          · exact ⟨0, hs⟩
          · exact ⟨1, hs⟩
        | success data =>
          cases hcut : env.varCut with
          | none =>
            cases hres : (varGo (varEnvOf env) jobId isMod maxAttempts 1 data).result with
            | success d =>
              simp only [orchestrateItems, h0, h1, if_false, Bool.false_eq_true,
                hcut, validateAndRepair_def, hres] at hs
              simp [doneItem] at hs
              rcases hs with hs | hs | hs
              · exact ⟨0, hs⟩
              · exact ⟨1, hs⟩
              · exact hvar data hs
            | error m2 =>
              simp only [orchestrateItems, h0, h1, if_false, Bool.false_eq_true,
                hcut, validateAndRepair_def, hres] at hs
              simp [doneItem] at hs
              rcases hs with hs | hs | hs
              · exact ⟨0, hs⟩
              · exact ⟨1, hs⟩
              · exact hvar data hs
          | some k =>
            by_cases hlen :
                k < ((varGo (varEnvOf env) jobId isMod maxAttempts 1 data).items).length
            · simp only [orchestrateItems, h0, h1, if_false, Bool.false_eq_true,
                hcut, validateAndRepair_def, hlen, if_true] at hs
              simp [sendErrorItems, doneItem] at hs
              rcases hs with hs | hs | hs | hs
              · exact ⟨0, hs⟩
              · exact ⟨1, hs⟩
              · exact hvar data (List.mem_of_mem_take hs)
              · exact hvar data (List.mem_of_mem_drop hs)
            · cases hres : (varGo (varEnvOf env) jobId isMod maxAttempts 1 data).result with
              | success d =>
                simp only [orchestrateItems, h0, h1, if_false, Bool.false_eq_true,
                  hcut, validateAndRepair_def, hlen, if_false, hres] at hs
                simp [doneItem] at hs
                rcases hs with hs | hs | hs
                · exact ⟨0, hs⟩
                · exact ⟨1, hs⟩
                · exact hvar data hs
              | error m2 =>
                simp only [orchestrateItems, h0, h1, if_false, Bool.false_eq_true,
                  hcut, validateAndRepair_def, hlen, if_false, hres] at hs
                simp [doneItem] at hs
                rcases hs with hs | hs | hs
                · exact ⟨0, hs⟩
                · exact ⟨1, hs⟩
                · exact hvar data hs

/-- Cancellation suppression at the orchestration level, with no
hypothesis on the environment: any checkpoint of a job trace that
observes the canceled flag is followed by no events at all (when it
belongs to the post-timeout loop continuation) or by exactly the
terminal done event, whose ok flag is the negation of the cleanup-time
canceled read. -/
lemma orchestrate_afterCancelQuiet (env : JobEnv J) (jobId : Nat) (stg : Stage)
    (sm fp : String) (call : Outcome (Result J)) (isMod : Bool)
    (flag : Option Bool) :
    afterCancelQuiet (!(env.snap 5).canceled)
      (orchestrateItems env jobId stg sm fp call isMod flag) = true := by
  have hq : isDoneOrNothing (!(env.snap 5).canceled)
      (eventsOf ([doneItem env] : List (Item J))) = true := by
    simp [doneItem, isDoneOrNothing]
  have hcheckdone : ∀ c : Nat,
      afterCancelQuiet (!(env.snap 5).canceled)
        [Item.check (env.snap c), doneItem env] = true := by
    intro c
    rw [afterCancelQuiet_check]
    by_cases hb : (env.snap c).canceled = true
    · simp only [hb, if_true, Bool.and_eq_true]
      refine ⟨hq, ?_⟩
      simp [doneItem]
    · rw [Bool.not_eq_true] at hb
      simp [hb, doneItem]
  by_cases h0 : makeStaleChecker (env.snap 0) jobId = true
  · simp only [orchestrateItems, h0, if_true]
    exact hcheckdone 0
  · have hc0 : (env.snap 0).canceled = false :=
      canceled_false_of_not_stale (by rwa [Bool.not_eq_true] at h0)
    cases call with
    | thrown msg =>
      simp [orchestrateItems, h0, hc0, sendErrorItems, doneItem]
    | ok tr =>
      by_cases h1 : makeStaleChecker (env.snap 1) jobId = true
      · simp only [orchestrateItems, h0, h1, if_true, if_false,
          Bool.false_eq_true, afterCancelQuiet_ev,
          afterCancelQuiet_check_false _ hc0]
        exact hcheckdone 1
      · have hc1 : (env.snap 1).canceled = false :=
          canceled_false_of_not_stale (by rwa [Bool.not_eq_true] at h1)
        cases tr with
        | error m =>
          simp [orchestrateItems, h0, h1, hc0, hc1, sendErrorItems, doneItem]
        | success data =>
          rcases varCancelStruct (varEnvOf env) jobId isMod maxAttempts 1 data
            with hno | ⟨l, b, hb1, hb2, hb3, hb4⟩
          · -- no checkpoint inside the loop observed a cancellation
            cases hcut : env.varCut with
            | none =>
              simp only [orchestrateItems, h0, h1, if_false, Bool.false_eq_true,
                hcut, validateAndRepair_def, afterCancelQuiet_ev,
                afterCancelQuiet_check_false _ hc0,
                afterCancelQuiet_check_false _ hc1]
              rw [afterCancelQuiet_append_no]
              · simp [doneItem]
              · rw [noCanceledCheck_append, hno]
                cases hres : (varGo (varEnvOf env) jobId isMod maxAttempts 1 data).result <;>
                  simp [noCanceledCheck]
            | some k =>
              by_cases hlen :
                  k < ((varGo (varEnvOf env) jobId isMod maxAttempts 1 data).items).length
              · simp only [orchestrateItems, h0, h1, if_false, Bool.false_eq_true,
                  hcut, validateAndRepair_def, hlen, if_true, afterCancelQuiet_ev,
                  afterCancelQuiet_check_false _ hc0,
                  afterCancelQuiet_check_false _ hc1]
                rw [afterCancelQuiet_append_no]
                · exact afterCancelQuiet_of_no _ _ (noCanceledCheck_drop _ _ hno)
                · rw [noCanceledCheck_append, noCanceledCheck_append,
                    noCanceledCheck_take _ _ hno]
                  simp [sendErrorItems, doneItem, noCanceledCheck]
              · simp only [orchestrateItems, h0, h1, if_false, Bool.false_eq_true,
                  hcut, validateAndRepair_def, hlen, afterCancelQuiet_ev,
                  afterCancelQuiet_check_false _ hc0,
                  afterCancelQuiet_check_false _ hc1]
                rw [afterCancelQuiet_append_no]
                · simp [doneItem]
                · rw [noCanceledCheck_append, hno]
                  cases hres : (varGo (varEnvOf env) jobId isMod maxAttempts 1 data).result <;>
                    simp [noCanceledCheck]
          · -- the loop trace ends at a checkpoint that observed cancellation
            have hb1' :
                (varGo (varEnvOf env) jobId isMod maxAttempts 1 data).items
                  = l ++ [Item.check (env.snap (1 + b))] := hb1
            have hb2' : (env.snap (1 + b)).canceled = true := hb2
            have hlen' :
                ((varGo (varEnvOf env) jobId isMod maxAttempts 1 data).items).length
                  = l.length + 1 := by
              rw [hb1']
              simp
            cases hcut : env.varCut with
            | none =>
              simp only [orchestrateItems, h0, h1, if_false, Bool.false_eq_true,
                hcut, validateAndRepair_def, afterCancelQuiet_ev,
                afterCancelQuiet_check_false _ hc0,
                afterCancelQuiet_check_false _ hc1]
              rw [hb1', hb4]
              simp only [List.append_nil, List.append_assoc, List.singleton_append]
              rw [afterCancelQuiet_append_no _ _ _ hb3, afterCancelQuiet_check]
              simp only [hb2', if_true, Bool.and_eq_true]
              refine ⟨hq, ?_⟩
              simp [doneItem]
            | some k =>
              by_cases hlen :
                  k < ((varGo (varEnvOf env) jobId isMod maxAttempts 1 data).items).length
              · have hkle : k ≤ l.length := by
                  rw [hlen'] at hlen
                  omega
                have htk0 : k - l.length = 0 := by omega
                have htake :
                    ((varGo (varEnvOf env) jobId isMod maxAttempts 1 data).items).take k
                      = l.take k := by
                  rw [hb1', List.take_append_eq_append_take, htk0]
                  simp
                have hdrop :
                    ((varGo (varEnvOf env) jobId isMod maxAttempts 1 data).items).drop k
                      = l.drop k ++ [Item.check (env.snap (1 + b))] := by
                  rw [hb1', List.drop_append_eq_append_drop, htk0]
                  simp
                simp only [orchestrateItems, h0, h1, if_false, Bool.false_eq_true,
                  hcut, validateAndRepair_def, hlen, if_true, afterCancelQuiet_ev,
                  afterCancelQuiet_check_false _ hc0,
                  afterCancelQuiet_check_false _ hc1]
                rw [htake, hdrop, ← List.append_assoc]
                rw [afterCancelQuiet_append_no]
                · rw [afterCancelQuiet_check]
                  simp [hb2', isDoneOrNothing]
                · rw [noCanceledCheck_append, noCanceledCheck_append,
                    noCanceledCheck_append, noCanceledCheck_take _ _ hb3,
                    noCanceledCheck_drop _ _ hb3]
                  simp [sendErrorItems, doneItem, noCanceledCheck]
              · simp only [orchestrateItems, h0, h1, if_false, Bool.false_eq_true,
                  hcut, validateAndRepair_def, hlen, afterCancelQuiet_ev,
                  afterCancelQuiet_check_false _ hc0,
                  afterCancelQuiet_check_false _ hc1]
                rw [hb1', hb4]
                simp only [List.append_nil, List.append_assoc, List.singleton_append]
                rw [afterCancelQuiet_append_no _ _ _ hb3, afterCancelQuiet_check]
                simp only [hb2', if_true, Bool.and_eq_true]
                refine ⟨hq, ?_⟩
                simp [doneItem]

lemma accepts_of_foldl (evs : List (Event J))
    (h : List.foldl aStepAmended AState.s0 evs ∈ acceptStates) :
    acceptsAmendedOrder evs = true := by
  simp [acceptStates] at h
  rcases h with h | h | h | h | h | h <;> simp [acceptsAmendedOrder, h]

/-- Event ordering at the orchestration level: every job trace is
accepted by the amended event-order automaton, including on the
timeout path where the abandoned loop continuation's events follow the
done events. -/
lemma orchestrate_accepts (env : JobEnv J) (jobId : Nat) (stg : Stage)
    (sm fp : String) (call : Outcome (Result J)) (isMod : Bool)
    (flag : Option Bool)
    (hstg : stg = Stage.translating ∨ stg = Stage.modifying) :
    acceptsAmendedOrder
      (eventsOf (orchestrateItems env jobId stg sm fp call isMod flag)) = true := by
  have hRS : ∀ rest : List (Event J),
      List.foldl aStepAmended AState.s0
        (Event.status Stage.received "Prompt received." ::
          Event.status stg sm :: rest)
      = List.foldl aStepAmended AState.s2 rest := by
    intro rest
    rcases hstg with h | h <;> subst h <;> simp [aStepAmended]
  apply accepts_of_foldl
  by_cases h0 : makeStaleChecker (env.snap 0) jobId = true
  · simp [orchestrateItems, h0, doneItem, aStepAmended, acceptStates]
  · cases call with
    | thrown msg =>
      simp only [orchestrateItems, h0, if_false, Bool.false_eq_true,
        sendErrorItems, doneItem, eventsOf_check, eventsOf_ev, eventsOf_append,
        eventsOf_nil, List.cons_append, List.nil_append]
      rw [hRS]
      simp [aStepAmended, acceptStates]
    | ok tr =>
      by_cases h1 : makeStaleChecker (env.snap 1) jobId = true
      · simp only [orchestrateItems, h0, h1, if_true, if_false,
          Bool.false_eq_true, doneItem, eventsOf_check, eventsOf_ev, eventsOf_nil]
        rw [hRS]
        simp [aStepAmended, acceptStates]
      · cases tr with
        | error m =>
          simp only [orchestrateItems, h0, h1, if_false, Bool.false_eq_true,
            sendErrorItems, doneItem, eventsOf_check, eventsOf_ev,
            eventsOf_append, eventsOf_nil, List.cons_append, List.nil_append]
          rw [hRS]
          simp [aStepAmended, acceptStates]
        | success data =>
          obtain ⟨a1, a2, a3⟩ :=
            varAuto (varEnvOf env) jobId isMod maxAttempts 1 data
              AState.s2 (Or.inl rfl)
          cases hcut : env.varCut with
          | none =>
            simp only [orchestrateItems, h0, h1, if_false, Bool.false_eq_true,
              hcut, validateAndRepair_def, doneItem, eventsOf_check, eventsOf_ev,
              eventsOf_append, eventsOf_nil, List.append_assoc]
            rw [hRS, List.foldl_append]
            cases hres : (varGo (varEnvOf env) jobId isMod maxAttempts 1 data).result with
            | success d =>
              rw [a3 d hres]
              simp [aStepAmended, acceptStates]
            | error m =>
              simp only [eventsOf_nil, List.nil_append, eventsOf_ev,
                List.foldl_cons, List.foldl_nil]
              rcases aStep_done_of_endState _ a2 (!(env.snap 5).canceled)
                with hd | hd <;> rw [hd] <;> simp [acceptStates]
          | some k =>
            by_cases hlen :
                k < ((varGo (varEnvOf env) jobId isMod maxAttempts 1 data).items).length
            · simp only [orchestrateItems, h0, h1, if_false, Bool.false_eq_true,
                hcut, validateAndRepair_def, hlen, if_true, sendErrorItems,
                doneItem, eventsOf_check, eventsOf_ev, eventsOf_append,
                eventsOf_nil, List.append_assoc, List.cons_append, List.nil_append]
              rw [hRS, List.foldl_append]
              have hmid := a1 k hlen
              rw [List.foldl_cons, aStep_error_of_midState _ hmid,
                List.foldl_cons, List.foldl_cons]
              have h12 :
                  aStepAmended (J := J)
                    (aStepAmended (J := J) AState.sE
                      (Event.done false))
                    (Event.done (!(env.snap 5).canceled))
                  = AState.e2 := by
                simp [aStepAmended]
              rw [h12]
              exact accept_of_post
                (varAutoDrop (varEnvOf env) jobId isMod maxAttempts 1 data k)
            · simp only [orchestrateItems, h0, h1, if_false, Bool.false_eq_true,
                hcut, validateAndRepair_def, hlen, if_false, doneItem,
                eventsOf_check, eventsOf_ev, eventsOf_append, eventsOf_nil,
                List.append_assoc]
              rw [hRS, List.foldl_append]
              cases hres : (varGo (varEnvOf env) jobId isMod maxAttempts 1 data).result with
              | success d =>
                rw [a3 d hres]
                simp [aStepAmended, acceptStates]
              | error m =>
                simp only [eventsOf_nil, List.nil_append, eventsOf_ev,
                  List.foldl_cons, List.foldl_nil]
                rcases aStep_done_of_endState _ a2 (!(env.snap 5).canceled)
                  with hd | hd <;> rw [hd] <;> simp [acceptStates]

lemma afterCancelQuiet_split (b : Bool) :
    ∀ (l1 : List (Item J)) (s : ConnSnapshot) (l2 : List (Item J)),
      afterCancelQuiet b (l1 ++ Item.check s :: l2) = true → s.canceled = true →
      (eventsOf l2 = [Event.done b] ∨ eventsOf l2 = []) := by
  intro l1
  induction l1 with
  | nil =>
    intro s l2 h hc
    rw [List.nil_append, afterCancelQuiet_check, hc] at h
    simp only [if_true, Bool.and_eq_true] at h
    exact isDoneOrNothing_eq h.1
  | cons it rest ih =>
    intro s l2 h hc
    cases it with
    | ev e =>
      rw [List.cons_append, afterCancelQuiet_ev] at h
      exact ih s l2 h hc
    | check s' =>
      rw [List.cons_append, afterCancelQuiet_check] at h
      rw [Bool.and_eq_true] at h
      exact ih s l2 h.2 hc

lemma varGo_success_validated (env : VAREnv J) (jobId : Nat) (m : Bool) :
    ∀ (r a : Nat) (j d : J),
      (varGo env jobId m r a j).result = Result.success d →
      ∃ w, env.validate d = Result.success w := by
  intro r
  induction r with
  | zero =>
    intro a j d h
    simp [varGo] at h
  | succ r ih =>
    intro a j d h
    by_cases hst : makeStaleChecker (env.snap a) jobId = true
    · rw [varGo_stale env jobId m r a j hst] at h
      simp at h
    · rw [Bool.not_eq_true] at hst
      cases hv : env.validate j with
      | success w =>
        rw [varGo_valid env jobId m r a j w hst hv] at h
        simp only [Result.success.injEq] at h
        exact ⟨w, h ▸ hv⟩
      | error vmsg =>
        by_cases ha : (a == maxAttempts) = true
        · rw [varGo_final env jobId m r a j vmsg hst hv ha] at h
          simp at h
        · rw [Bool.not_eq_true] at ha
          cases hr : env.repair a j vmsg with
          | thrown emsg =>
            rw [varGo_thrown env jobId m r a j vmsg emsg hst hv ha hr] at h
            simp at h
          | ok rres =>
            cases rres with
            | error rmsg =>
              rw [varGo_repairFail env jobId m r a j vmsg rmsg hst hv ha hr] at h
              simp at h
            | success repaired =>
              rw [varGo_repairOk env jobId m r a j repaired vmsg hst hv ha hr] at h
              exact ih (a + 1) repaired d h

end Lemmas

section Claims

/-- C1: the spec claims every job started by a prompt or modify message
emits exactly one done event, with ok false iff the connection was
canceled during the job.  The code violates this: on the
generation-failure path (and every thrown-error path) sendError emits an
error event AND a done event with ok false, after which the finally
block emits a second done event with ok = not canceled.  At the concrete
input below (a prompt job whose translate call returns a structural
failure, on a connection that is never canceled) the job emits two done
events, the first with ok false although the connection was never
canceled. -/
theorem c1_done_event_code_bug :
    eventsOf (runJobItems envErrPath 1) =
      [Event.status Stage.received "Prompt received.",
       Event.status Stage.translating "Starting translation to schema...",
       Event.error "The response is not JSON.",
       Event.done false,
       Event.done true]
    ∧ countDone (eventsOf (runJobItems envErrPath 1)) = 2
    ∧ (∀ k, (envErrPath.snap k).canceled = false) :=
  ⟨rfl, rfl, fun _ => rfl⟩

/-- C2 (counterexample): the spec claims that once any staleness
checkpoint of a job observes the cancellation, the only remaining event
for that job is the terminal done with ok false.  This fails when the
outer 180-second timeout around validateAndRepair fires mid-loop:
Promise.race does not stop the losing loop, so the catch and finally
blocks emit the timeout error and both done events while the loop keeps
running, and when the loop's next checkpoint then observes the
cancellation (here the socket closed during the first repair call) that
checkpoint is the last item of the job trace, followed by no event at
all — no done{ok:false} remains; the job's terminal done even carried
ok = true, since cleanup ran before the flag was set. -/
theorem c2_cancel_suppression_counterexample :
    runJobItems envCancelLate 1 =
      [Item.check { canceled := false, lastJobId := 1 },
       Item.ev (Event.status Stage.received "Prompt received."),
       Item.ev (Event.status Stage.translating "Starting translation to schema..."),
       Item.check { canceled := false, lastJobId := 1 },
       Item.check { canceled := false, lastJobId := 1 },
       Item.ev (Event.status Stage.validating "Validating schema (attempt 1)"),
       Item.ev (Event.status Stage.repair "Repairing (1/3): bad"),
       Item.ev (Event.error "Operation timed out"),
       Item.ev (Event.done false),
       Item.ev (Event.done true)]
      ++ Item.check { canceled := true, lastJobId := 1 } :: ([] : List (Item Nat))
    ∧ eventsOf ([] : List (Item Nat)) ≠ [Event.done false] :=
  ⟨rfl, by decide⟩

/-- C2 (amended): once any staleness checkpoint of a running job of
either kind observes the canceled flag, no further status, result,
result_partial or error events are emitted for that job.  Part one, for
every environment: all that can remain is the terminal done event,
whose ok flag is the negation of the cleanup-time canceled read — or
nothing at all, when the observation happens in the loop continuation
abandoned by the outer timeout, whose cleanup already emitted its
events.  Part two: when the canceled flag moreover never goes false
again across the job's state reads (the code never resets it), the
remaining done event has ok = false. -/
theorem c2_cancel_suppression_amended {J : Type} :
    (∀ (env : JobEnv J) (jobId : Nat) (l1 : List (Item J)) (s : ConnSnapshot)
        (l2 : List (Item J)),
      (runJobItems env jobId = l1 ++ Item.check s :: l2
        ∨ runModificationJobItems env jobId = l1 ++ Item.check s :: l2) →
      s.canceled = true →
      (eventsOf l2 = [Event.done (!(env.snap 5).canceled)] ∨ eventsOf l2 = []))
    ∧ (∀ (env : JobEnv J) (jobId : Nat),
      (∀ k, (env.snap k).canceled = true → (env.snap 5).canceled = true) →
      ∀ (l1 : List (Item J)) (s : ConnSnapshot) (l2 : List (Item J)),
      (runJobItems env jobId = l1 ++ Item.check s :: l2
        ∨ runModificationJobItems env jobId = l1 ++ Item.check s :: l2) →
      s.canceled = true →
      (eventsOf l2 = [Event.done false] ∨ eventsOf l2 = [])) := by
  have hpart1 : ∀ (env : JobEnv J) (jobId : Nat) (l1 : List (Item J))
      (s : ConnSnapshot) (l2 : List (Item J)),
      (runJobItems env jobId = l1 ++ Item.check s :: l2
        ∨ runModificationJobItems env jobId = l1 ++ Item.check s :: l2) →
      s.canceled = true →
      (eventsOf l2 = [Event.done (!(env.snap 5).canceled)]
        ∨ eventsOf l2 = []) := by
    intro env jobId l1 s l2 hsplit hc
    rcases hsplit with h | h
    · have hok := orchestrate_afterCancelQuiet env jobId Stage.translating
        "Starting translation to schema..." "Translation failed: "
        env.translateCall false none
      rw [← runJobItems_eq_orchestrate, h] at hok
      exact afterCancelQuiet_split _ l1 s l2 hok hc
    · have hok := orchestrate_afterCancelQuiet env jobId Stage.modifying
        "Starting modification to schema..." "Modification failed: "
        env.modifyCall true (some true)
      rw [← runModificationJobItems_eq_orchestrate, h] at hok
      exact afterCancelQuiet_split _ l1 s l2 hok hc
  refine ⟨hpart1, ?_⟩
  intro env jobId hmono l1 s l2 hsplit hc
  rcases hpart1 env jobId l1 s l2 hsplit hc with h1 | h1
  · have hk : ∃ k, s = env.snap k := by
      rcases hsplit with h | h
      · have hmem : Item.check s ∈ orchestrateItems env jobId Stage.translating
            "Starting translation to schema..." "Translation failed: "
            env.translateCall false none := by
          rw [← runJobItems_eq_orchestrate, h]
          simp
        exact orchestrate_check_mem env jobId _ _ _ _ _ _ s hmem
      · have hmem : Item.check s ∈ orchestrateItems env jobId Stage.modifying
            "Starting modification to schema..." "Modification failed: "
            env.modifyCall true (some true) := by
          rw [← runModificationJobItems_eq_orchestrate, h]
          simp
        exact orchestrate_check_mem env jobId _ _ _ _ _ _ s hmem
    obtain ⟨k, hkk⟩ := hk
    have h5 : (env.snap 5).canceled = true := by
      apply hmono k
      rw [← hkk]
      exact hc
    rw [h5] at h1
    simp only [Bool.not_true] at h1
    exact Or.inl h1
  · exact Or.inr h1

/-- Witness for the amended C2 at a concrete canceled connection: the
initial checkpoint observes the cancellation and only done(ok false)
follows. -/
theorem c2_cancel_suppression_amended_witness :
    eventsOf ([Item.ev (Event.done false)] : List (Item Nat)) = [Event.done false]
    ∨ eventsOf ([Item.ev (Event.done false)] : List (Item Nat)) = [] :=
  (c2_cancel_suppression_amended).2 envCanceled 1 (fun _ h => h) []
    { canceled := true, lastJobId := 1 } [Item.ev (Event.done false)]
    (Or.inl rfl) rfl

/-- C3 (counterexample): the spec claims the event sequence of every job
is a prefix of received → translating/modifying → validating →
(repairing → validating)* → (result | result_partial | error) followed
by exactly one done, with no event after the done.  At the concrete
input below (a prompt job whose generation step reports a structural
failure) the emitted sequence is received, translating, error,
done(false), done(true): the error does not follow a validating stage
and a second done follows the first, so the trace is rejected by the
automaton encoding the claimed ordering. -/
theorem c3_event_order_counterexample :
    acceptsClaimOrder (eventsOf (runJobItems envGenFail 1)) = false
    ∧ countDone (eventsOf (runJobItems envGenFail 1)) = 2 :=
  ⟨rfl, rfl⟩

/-- C3 (amended): for every job of either kind, the event sequence is
accepted by the amended ordering automaton: the stage events form a
prefix of received → translating/modifying → validating → (repair →
validating)*; a terminal result follows a validation, a result_partial
follows a validation or a repair status, and a hard error may also
follow the generation step or a repair status directly.  The trace then
closes with one done event — or, on the hard-error paths, the error is
followed by two done events (sendError's done(ok false), then the
cleanup done) — and nothing follows the last done except in the outer
timeout case, where the abandoned validate-repair continuation (which
Promise.race cannot stop) goes on emitting alternating validating and
repair statuses concluded by at most one result_partial or error event,
never a result and never another done. -/
theorem c3_event_order_amended {J : Type} (env : JobEnv J) (jobId : Nat) :
    acceptsAmendedOrder (eventsOf (runJobItems env jobId)) = true
    ∧ acceptsAmendedOrder (eventsOf (runModificationJobItems env jobId)) = true := by
  constructor
  · rw [runJobItems_eq_orchestrate]
    exact orchestrate_accepts env jobId Stage.translating
      "Starting translation to schema..." "Translation failed: "
      env.translateCall false none (Or.inl rfl)
  · rw [runModificationJobItems_eq_orchestrate]
    exact orchestrate_accepts env jobId Stage.modifying
      "Starting modification to schema..." "Modification failed: "
      env.modifyCall true (some true) (Or.inr rfl)

/-- C4: when the schema validator rejects every candidate, the staleness
checks all pass, and every repair call returns a fresh candidate, the
validate-repair engine performs exactly 2 repair calls (on attempts 1
and 2) and 3 validations, emits exactly the two repair rounds followed
by one result_partial carrying the last candidate and the final
diagnostic, never emits a result event, and returns an error Result
rather than throwing. -/
theorem c4_never_valid_exhaustion {J : Type} (env : VAREnv J) (jobId : Nat)
    (m : Bool) (j : J)
    (hstale : ∀ a, makeStaleChecker (env.snap a) jobId = false)
    (hval : ∀ x, ∃ msg, env.validate x = Result.error msg)
    (hrep : ∀ a x msg, ∃ y, env.repair a x msg = Outcome.ok (Result.success y)) :
    ∃ m1 c2 m2 c3 m3,
      env.validate j = Result.error m1
      ∧ env.repair 1 j m1 = Outcome.ok (Result.success c2)
      ∧ env.validate c2 = Result.error m2
      ∧ env.repair 2 c2 m2 = Outcome.ok (Result.success c3)
      ∧ env.validate c3 = Result.error m3
      ∧ (validateAndRepair env jobId j m).repairCalls = 2
      ∧ (validateAndRepair env jobId j m).validations = 3
      ∧ eventsOf (validateAndRepair env jobId j m).items =
          [Event.status Stage.validating "Validating schema (attempt 1)",
           Event.status Stage.repair ("Repairing (1/3): " ++ m1),
           Event.status Stage.validating "Validating schema (attempt 2)",
           Event.status Stage.repair ("Repairing (2/3): " ++ m2),
           Event.status Stage.validating "Validating schema (attempt 3)",
           Event.resultPartial c3
             ("Max repair attempts reached. Last error: " ++ m3) (some m)]
      ∧ (validateAndRepair env jobId j m).result =
          Result.error "Validation and repair loop exited unexpectedly." := by
  obtain ⟨m1, hm1⟩ := hval j
  obtain ⟨c2, hc2⟩ := hrep 1 j m1
  obtain ⟨m2, hm2⟩ := hval c2
  obtain ⟨c3, hc3⟩ := hrep 2 c2 m2
  obtain ⟨m3, hm3⟩ := hval c3
  refine ⟨m1, c2, m2, c3, m3, hm1, hc2, hm2, hc3, hm3, ?_, ?_, ?_, ?_⟩ <;>
    simp [validateAndRepair_def, varGo, maxAttempts, hstale 1, hstale 2,
      hstale 3, hm1, hm2, hm3, hc2, hc3, eventsOf,
      show "Validating schema (attempt " ++ toString (1 : Nat) ++ ")"
        = "Validating schema (attempt 1)" from by decide,
      show "Validating schema (attempt " ++ toString (2 : Nat) ++ ")"
        = "Validating schema (attempt 2)" from by decide,
      show "Validating schema (attempt " ++ toString (3 : Nat) ++ ")"
        = "Validating schema (attempt 3)" from by decide,
      show "Repairing (" ++ toString (1 : Nat) ++ "/3): " = "Repairing (1/3): "
        from by decide,
      show "Repairing (" ++ toString (2 : Nat) ++ "/3): " = "Repairing (2/3): "
        from by decide]

/-- Witness for C4 at a concrete never-validating environment. -/
theorem c4_never_valid_exhaustion_witness :
    (validateAndRepair envNeverValid 1 (0 : Nat) false).repairCalls = 2
    ∧ (validateAndRepair envNeverValid 1 (0 : Nat) false).result =
        Result.error "Validation and repair loop exited unexpectedly." := by
  obtain ⟨_, _, _, _, _, _, _, _, _, _, h6, _, _, h9⟩ :=
    c4_never_valid_exhaustion envNeverValid 1 false 0 (fun _ => rfl)
      (fun _ => ⟨"bad", rfl⟩) (fun _ x _ => ⟨x + 1, rfl⟩)
  exact ⟨h6, h9⟩

/-- C5: when the schema validator accepts the candidate on the first
check and the job is authoritative at attempt 1, the engine returns
success carrying exactly that candidate after one validation, zero
repair calls, and only the attempt-1 validating status event; and any
success Result of the loop carries a candidate the validator accepts —
validation acceptance is the only success exit. -/
theorem c5_first_valid_success {J : Type} :
    (∀ (env : VAREnv J) (jobId : Nat) (m : Bool) (j w : J),
      makeStaleChecker (env.snap 1) jobId = false →
      env.validate j = Result.success w →
      validateAndRepair env jobId j m =
        { items := [Item.check (env.snap 1),
            Item.ev (Event.status Stage.validating
              "Validating schema (attempt 1)")],
          result := Result.success j, repairCalls := 0, validations := 1 })
    ∧ (∀ (env : VAREnv J) (jobId : Nat) (m : Bool) (r a : Nat) (j d : J),
        (varGo env jobId m r a j).result = Result.success d →
        ∃ w, env.validate d = Result.success w) := by
  constructor
  · intro env jobId m j w h hv
    exact varGo_valid env jobId m 2 1 j w h hv
  · intro env jobId m r a j d h
    exact varGo_success_validated env jobId m r a j d h

/-- Witness for C5 at a concrete always-valid environment. -/
theorem c5_first_valid_success_witness :
    validateAndRepair envAlwaysValid 1 (5 : Nat) false =
      { items := [Item.check { canceled := false, lastJobId := 1 },
          Item.ev (Event.status Stage.validating
            "Validating schema (attempt 1)")],
        result := Result.success 5, repairCalls := 0, validations := 1 } :=
  (c5_first_valid_success).1 envAlwaysValid 1 false 5 5 rfl rfl

/-- C6 (counterexample): the spec claims the status event emitted before
each repair call has stage "repairing", a member of the stage
enumeration.  In the code the stage enumeration member and emitted stage
is "repair": at the concrete never-validating input below the status
event before the first repair call has stage string "repair", which
differs from "repairing", and "repairing" is not in the stageName
enumeration at all. -/
theorem c6_status_stages_counterexample :
    (eventsOf (validateAndRepair envC6c 1 (0 : Nat) false).items)[1]?
      = some (Event.status Stage.repair "Repairing (1/3): field missing")
    ∧ stageText Stage.repair = "repair"
    ∧ ("repair" : String) ≠ "repairing"
    ∧ "repairing" ∉ stageNames :=
  ⟨rfl, rfl, by decide, by decide⟩

/-- C6 (amended): every status event of the validate-repair loop either
has stage "validating" with the attempt number carried in its message,
or has stage "repair" — a member of the stageName enumeration — with the
message carrying the diagnostic of a candidate the validator rejected.
The server never populates the separate attempt field, so the attempt
number travels in the message text. -/
theorem c6_status_stages_amended {J : Type} (env : VAREnv J) (jobId : Nat)
    (m : Bool) (r a0 : Nat) (j : J) :
    ∀ e ∈ eventsOf (varGo env jobId m r a0 j).items,
      ∀ stg msg, e = Event.status stg msg →
        stageText stg ∈ stageNames
        ∧ ((stg = Stage.validating
            ∧ ∃ b : Nat, msg = "Validating schema (attempt " ++ toString b ++ ")")
          ∨ (stg = Stage.repair
            ∧ ∃ (b : Nat) (c : J) (d : String), env.validate c = Result.error d
              ∧ msg = "Repairing (" ++ toString b ++ "/3): " ++ d)) := by
  induction r generalizing a0 j with
  | zero =>
    intro e he
    simp [varGo] at he
  | succ r ih =>
    intro e he stg msg hev
    by_cases hst : makeStaleChecker (env.snap a0) jobId = true
    · rw [varGo_stale env jobId m r a0 j hst] at he
      simp at he
    · rw [Bool.not_eq_true] at hst
      cases hv : env.validate j with
      | success w =>
        rw [varGo_valid env jobId m r a0 j w hst hv] at he
        simp at he
        subst he
        simp only [Event.status.injEq] at hev
        refine ⟨?_, Or.inl ⟨hev.1.symm, a0, hev.2.symm⟩⟩
        rw [← hev.1]
        simp [stageText, stageNames]
      | error vmsg =>
        by_cases ha : (a0 == maxAttempts) = true
        · rw [varGo_final env jobId m r a0 j vmsg hst hv ha] at he
          simp at he
          rcases he with he | he
          · subst he
            simp only [Event.status.injEq] at hev
            refine ⟨?_, Or.inl ⟨hev.1.symm, a0, hev.2.symm⟩⟩
            rw [← hev.1]
            simp [stageText, stageNames]
          · subst he
            simp at hev
        · rw [Bool.not_eq_true] at ha
          have hmain : ∀ he' : e ∈ eventsOf
              [Item.check (env.snap a0),
               Item.ev (Event.status Stage.validating
                 ("Validating schema (attempt " ++ toString a0 ++ ")")),
               Item.ev (Event.status Stage.repair
                 ("Repairing (" ++ toString a0 ++ "/3): " ++ vmsg))],
              stageText stg ∈ stageNames
              ∧ ((stg = Stage.validating
                  ∧ ∃ b : Nat, msg = "Validating schema (attempt " ++ toString b ++ ")")
                ∨ (stg = Stage.repair
                  ∧ ∃ (b : Nat) (c : J) (d : String), env.validate c = Result.error d
                    ∧ msg = "Repairing (" ++ toString b ++ "/3): " ++ d)) := by
            intro he'
            simp at he'
            rcases he' with he' | he'
            · subst he'
              simp only [Event.status.injEq] at hev
              refine ⟨?_, Or.inl ⟨hev.1.symm, a0, hev.2.symm⟩⟩
              rw [← hev.1]
              simp [stageText, stageNames]
            · subst he'
              simp only [Event.status.injEq] at hev
              refine ⟨?_, Or.inr ⟨hev.1.symm, a0, j, vmsg, hv, hev.2.symm⟩⟩
              rw [← hev.1]
              simp [stageText, stageNames]
          cases hr : env.repair a0 j vmsg with
          | thrown emsg =>
            rw [varGo_thrown env jobId m r a0 j vmsg emsg hst hv ha hr] at he
            simp at he
            rcases he with he | he | he
            · exact hmain (by simp [he])
            · exact hmain (by simp [he])
            · subst he
              simp at hev
          | ok rres =>
            cases rres with
            | error rmsg =>
              rw [varGo_repairFail env jobId m r a0 j vmsg rmsg hst hv ha hr] at he
              simp at he
              rcases he with he | he | he
              · exact hmain (by simp [he])
              · exact hmain (by simp [he])
              · subst he
                simp at hev
            | success repaired =>
              rw [varGo_repairOk env jobId m r a0 j repaired vmsg hst hv ha hr] at he
              simp at he
              rcases he with he | he | he
              · exact hmain (by simp [he])
              · exact hmain (by simp [he])
              · exact ih (a0 + 1) repaired e (by simpa using he) stg msg hev

/-- Witness for C6 at a concrete never-validating environment: the
repair-stage status of attempt 1 satisfies the amended property. -/
theorem c6_status_stages_amended_witness :
    stageText Stage.repair ∈ stageNames :=
  (c6_status_stages_amended envC6w 1 false 3 1 0
    (Event.status Stage.repair "Repairing (1/3): field missing")
    (by decide) Stage.repair "Repairing (1/3): field missing" rfl).1

/-- C7: a job is stale exactly when the connection's canceled flag is
set or the job's captured id differs from lastJobId at the time of the
check; and when the validate-repair loop finds the job stale at the
start of an attempt, it returns the stale-failure Result immediately,
emitting no events and performing no validation and no repair call. -/
theorem c7_staleness {J : Type} :
    (∀ (s : ConnSnapshot) (id : Nat),
      makeStaleChecker s id = true ↔ (s.canceled = true ∨ id ≠ s.lastJobId))
    ∧ (∀ (env : VAREnv J) (jobId : Nat) (m : Bool) (r a : Nat) (j : J),
        makeStaleChecker (env.snap a) jobId = true →
        varGo env jobId m (r + 1) a j =
          { items := [Item.check (env.snap a)],
            result := Result.error "Job stale or canceled during validation.",
            repairCalls := 0, validations := 0 }
        ∧ eventsOf (varGo env jobId m (r + 1) a j).items = []) := by
  constructor
  · intro s id
    simp [makeStaleChecker, Bool.or_eq_true, bne_iff_ne]
  · intro env jobId m r a j h
    have heq := varGo_stale env jobId m r a j h
    refine ⟨heq, ?_⟩
    simp [heq]

/-- Witness for C7 on a concrete canceled connection. -/
theorem c7_staleness_witness :
    varGo envStale 1 false 3 1 (0 : Nat) =
      { items := [Item.check { canceled := true, lastJobId := 1 }],
        result := Result.error "Job stale or canceled during validation.",
        repairCalls := 0, validations := 0 } :=
  ((c7_staleness (J := Nat)).2 envStale 1 false 2 1 0 rfl).1

/-- C8 (counterexample): the spec claims every prompt or modify message
received while busy yields a single error event and nothing else.  At
the concrete input below (a prompt whose text trims to empty, received
while busy) the handler emits two events — the missing-prompt error AND
a done with ok false — because the empty-prompt validation precedes the
busy check. -/
theorem c8_busy_reject_counterexample :
    (handleMessage (J := Nat) stBusyW 0 (ClientMessage.prompt (some " "))).2.1
      = [Event.error "Missing \x27prompt\x27.", Event.done false]
    ∧ ((handleMessage (J := Nat) stBusyW 0 (ClientMessage.prompt (some " "))).2.1).length = 2
    ∧ stBusyW.busy = true := by
  refine ⟨?_, ?_, rfl⟩ <;> decide

/-- C8 (amended): every prompt or modify message whose prompt trims
nonempty, received while the connection is busy, yields the single
busy-rejection error event, leaves the state (busy, canceled, stage,
lastJobId) unchanged, and dispatches no job.  (A message whose prompt
trims to empty instead receives the missing-prompt error plus
done(false), also with no state change and no dispatch.) -/
theorem c8_busy_reject_amended {J : Type} (st : SocketState) (now : Int)
    (p : Option String) (hbusy : st.busy = true)
    (hp : trimString (p.getD "") ≠ "") :
    handleMessage (J := J) st now (ClientMessage.prompt p)
      = (st, [Event.error "Job already in progress on this connection."], none)
    ∧ (∀ oj : Option J, handleMessage st now (ClientMessage.modify p oj)
      = (st, [Event.error "Job already in progress on this connection."], none)) := by
  constructor
  · simp [handleMessage, hp, hbusy]
  · intro oj
    simp [handleMessage, hp, hbusy]

/-- Witness for the amended C8 at a concrete busy connection. -/
theorem c8_busy_reject_amended_witness :
    handleMessage (J := Nat) stBusyW 0 (ClientMessage.prompt (some "hello"))
      = (stBusyW, [Event.error "Job already in progress on this connection."], none) :=
  (c8_busy_reject_amended stBusyW 0 (some "hello") rfl (by decide)).1

/-- C9: a prompt message whose prompt trims to empty yields exactly the
missing-prompt error followed by done(ok false), leaves the state
unchanged (in particular lastJobId: no job id is allocated), and
dispatches no job. -/
theorem c9_empty_prompt {J : Type} (st : SocketState) (now : Int)
    (p : Option String) (hp : trimString (p.getD "") = "") :
    handleMessage (J := J) st now (ClientMessage.prompt p)
      = (st, [Event.error "Missing \x27prompt\x27.", Event.done false], none) := by
  simp [handleMessage, hp]

/-- Witness for C9 at a concrete whitespace prompt. -/
theorem c9_empty_prompt_witness :
    handleMessage (J := Nat) stIdleW 0 (ClientMessage.prompt (some "   "))
      = (stIdleW, [Event.error "Missing \x27prompt\x27.", Event.done false], none) :=
  c9_empty_prompt stIdleW 0 (some "   ") (by decide)

/-- C10: the translate, modify and repair operations never throw on a
malformed model response: when the response text has no first opening
brace followed by a later last closing brace they return the
"Response is not JSON" error Result; when that slice fails to JSON-parse
they return the parse error; and on success the returned data is exactly
the value obtained by parsing the slice from the first opening brace
through the last closing brace.  A completion failure is passed through
unchanged, and all three operations treat a successful completion text
identically via parse_json_response. -/
theorem c10_parse_json {J : Type} (g : GenModel J) (t : String) :
    (¬(jsIndexOf t braceOpen ≥ 0
        ∧ jsLastIndexOf t braceClose > jsIndexOf t braceOpen) →
      (parse_json_response g t = Result.error ("Response is not JSON:\n" ++ t)
       ∧ translate g (Result.success t)
          = Result.error ("Response is not JSON:\n" ++ t)
       ∧ modify g (Result.success t)
          = Result.error ("Response is not JSON:\n" ++ t)
       ∧ repair g (Result.success t)
          = Result.error ("Response is not JSON:\n" ++ t)))
    ∧ (∀ msg, (h1 : jsIndexOf t braceOpen ≥ 0) →
        (h2 : jsLastIndexOf t braceClose > jsIndexOf t braceOpen) →
        g.jsonParse (jsSlice t (jsIndexOf t braceOpen).toNat
          ((jsLastIndexOf t braceClose).toNat + 1)) = Except.error msg →
        parse_json_response g t = Result.error msg)
    ∧ (∀ v, (h1 : jsIndexOf t braceOpen ≥ 0) →
        (h2 : jsLastIndexOf t braceClose > jsIndexOf t braceOpen) →
        g.jsonParse (jsSlice t (jsIndexOf t braceOpen).toNat
          ((jsLastIndexOf t braceClose).toNat + 1)) = Except.ok v →
        parse_json_response g t = Result.success v)
    ∧ (∀ msg, translate g (Result.error msg) = Result.error msg
        ∧ modify g (Result.error msg) = Result.error msg
        ∧ repair g (Result.error msg) = Result.error msg)
    ∧ (translate g (Result.success t) = parse_json_response g t
        ∧ modify g (Result.success t) = parse_json_response g t
        ∧ repair g (Result.success t) = parse_json_response g t) := by
  refine ⟨?_, ?_, ?_, ?_, ?_⟩
  · intro h
    have hp : parse_json_response g t
        = Result.error ("Response is not JSON:\n" ++ t) := by
      simp only [parse_json_response]
      rw [if_neg h]
    exact ⟨hp, by simp [translate, hp], by simp [modify, hp], by simp [repair, hp]⟩
  · intro msg h1 h2 hp
    simp only [parse_json_response]
    rw [if_pos ⟨h1, h2⟩, hp]
  · intro v h1 h2 hp
    simp only [parse_json_response]
    rw [if_pos ⟨h1, h2⟩, hp]
  · intro msg
    exact ⟨rfl, rfl, rfl⟩
  · exact ⟨rfl, rfl, rfl⟩

/-- Witness for C10: a brace-free response yields the structural error. -/
theorem c10_parse_json_witness :
    parse_json_response gW "no braces"
      = Result.error ("Response is not JSON:\n" ++ "no braces") :=
  ((c10_parse_json gW "no braces").1 (by decide)).1

end Claims

end MythOS
